import Mathlib

/-!
Verification development for the geostar energy-ingest worker.

The definitions below are a shallow embedding of the TypeScript sources:
auth.ts (session login, expiry, validation), geostar-client.ts (gateway
listing and columnar energy parsing), db.ts (insert semantics over the
energy_readings table), and cron.ts (daily fetch and backfill jobs).
HTTP and database effects are modelled by explicit oracle environments
and explicit state passing; JavaScript runtime values appearing in
parsed vendor responses are modelled by the Json type below.
-/

namespace Geostar

/-- Model of a parsed JSON / JavaScript value as produced by JSON.parse.
Numbers are modelled as integers (no claim depends on fractional or
floating-point behaviour). Absent object fields are modelled by Option
at every access site. -/
inductive Json where
  | null : Json
  | bool (b : Bool) : Json
  | num (n : Int) : Json
  | str (s : String) : Json
  | arr (xs : List Json) : Json
  | obj (kvs : List (String × Json)) : Json

mutual

/-- Structural equality test on Json values. -/
def Json.beq : Json → Json → Bool
  | Json.null, Json.null => true
  | Json.bool a, Json.bool b => a == b
  | Json.num a, Json.num b => a == b
  | Json.str a, Json.str b => a == b
  | Json.arr xs, Json.arr ys => Json.beqList xs ys
  | Json.obj xs, Json.obj ys => Json.beqKvs xs ys
  | _, _ => false

/-- Structural equality test on lists of Json values. -/
def Json.beqList : List Json → List Json → Bool
  | [], [] => true
  | x :: xs, y :: ys => Json.beq x y && Json.beqList xs ys
  | _, _ => false

/-- Structural equality test on key-value lists. -/
def Json.beqKvs : List (String × Json) → List (String × Json) → Bool
  | [], [] => true
  | (k, v) :: xs, (l, w) :: ys => k == l && Json.beq v w && Json.beqKvs xs ys
  | _, _ => false

end

mutual

theorem Json.beq_iff : ∀ a b : Json, Json.beq a b = true ↔ a = b
  | Json.null, b => by cases b <;> simp [Json.beq]
  | Json.bool x, b => by cases b <;> simp [Json.beq]
  | Json.num x, b => by cases b <;> simp [Json.beq]
  | Json.str x, b => by cases b <;> simp [Json.beq]
  | Json.arr xs, b => by
      cases b <;> simp [Json.beq, Json.beqList_iff xs]
  | Json.obj xs, b => by
      cases b <;> simp [Json.beq, Json.beqKvs_iff xs]

theorem Json.beqList_iff : ∀ xs ys : List Json, Json.beqList xs ys = true ↔ xs = ys
  | [], ys => by cases ys <;> simp [Json.beqList]
  | x :: xs, ys => by
      cases ys with
      | nil => simp [Json.beqList]
      | cons y ys =>
          simp [Json.beqList, Json.beq_iff x y, Json.beqList_iff xs ys]

theorem Json.beqKvs_iff : ∀ xs ys : List (String × Json),
    Json.beqKvs xs ys = true ↔ xs = ys
  | [], ys => by cases ys <;> simp [Json.beqKvs]
  | (k, v) :: xs, ys => by
      cases ys with
      | nil => simp [Json.beqKvs]
      | cons y ys =>
          obtain ⟨l, w⟩ := y
          simp [Json.beqKvs, Json.beq_iff v w, Json.beqKvs_iff xs ys,
            and_assoc]

end

instance : DecidableEq Json := fun a b =>
  decidable_of_iff (Json.beq a b = true) (Json.beq_iff a b)

/-- JavaScript truthiness of a value (null, false, 0 and the empty
string are falsy; arrays and objects are always truthy). -/
def jsTruthy : Json → Bool
  | Json.null => false
  | Json.bool b => b
  | Json.num n => n != 0
  | Json.str s => s != ""
  | Json.arr _ => true
  | Json.obj _ => true

/-- Property access obj[k]: some value for an object that has the key
(first occurrence; JSON.parse never yields duplicate keys), none
(undefined) otherwise. -/
def jsField : Json → String → Option Json
  | Json.obj kvs, k => kvs.lookup k
  | _, _ => none

/-- Object.keys, as used when building diagnostic error messages. -/
def jsKeys : Json → List String
  | Json.obj kvs => kvs.map Prod.fst
  | Json.arr xs => (List.range xs.length).map toString
  | _ => []

mutual

/-- The String(...) coercion of a JavaScript value, used by getUserKey
when it stores the resolved user key. -/
def jsString : Json → String
  | Json.null => "null"
  | Json.bool b => if b then "true" else "false"
  | Json.num n => toString n
  | Json.str s => s
  | Json.arr xs => jsStringList xs
  | Json.obj _ => "[object Object]"

/-- Array toString: elements joined with commas. -/
def jsStringList : List Json → String
  | [] => ""
  | [x] => jsString x
  | x :: y :: rest => jsString x ++ "," ++ jsStringList (y :: rest)

end

/-! ## auth.ts: sessions, login, validation -/

/-- SESSION_MAX_AGE_MS from auth.ts: 12 hours in milliseconds. -/
def SESSION_MAX_AGE_MS : Int := 12 * 60 * 60 * 1000

/-- The Session record of auth.ts. -/
structure Session where
  sessionId : String
  userKey : String
  createdAt : Int
  deriving DecidableEq

/-- Result of getValidSession. -/
structure AuthResult where
  session : Session
  fresh : Bool
  deriving DecidableEq

/-- isSessionExpired from auth.ts, with Date.now() passed explicitly:
true exactly when now - createdAt is strictly greater than the fixed
12 hour TTL. -/
def isSessionExpired (now : Int) (session : Session) : Bool :=
  now - session.createdAt > SESSION_MAX_AGE_MS

/-- Outcome of the live probe GET /api.php/user made by validateSession:
either the fetch itself rejects (network failure), or a response arrives
with an ok flag (status in the 200 range) and a body that either parses
as JSON (some value) or does not (none). -/
inductive ProbeOutcome where
  | netFailure : ProbeOutcome
  | response (ok : Bool) (body : Option Json) : ProbeOutcome

/-- The ordered list of candidate user-key field names probed by auth.ts
and geostar-client.ts. -/
def userKeyFields : List String :=
  ["awlUserKey", "awluserkey", "auk", "id", "user_id", "userId"]

/-- First truthy value among the named fields of data, mirroring the
JavaScript expression data.awlUserKey || data.awluserkey || ... . -/
def firstTruthyField (data : Json) (names : List String) : Option Json :=
  names.findSome? fun n =>
    match jsField data n with
    | some v => if jsTruthy v then some v else none
    | none => none

/-- validateSession from auth.ts. The whole body is wrapped in
try/catch, so the model is a total Bool-valued function: a network
failure returns false; a non-ok status returns false; a non-JSON body
returns false; a truthy non-empty err field returns false; absence of
any truthy user-key candidate field returns false; otherwise true. -/
def validateSession : ProbeOutcome → Bool
  | ProbeOutcome.netFailure => false
  | ProbeOutcome.response ok body =>
    if !ok then false
    else
      match body with
      | none => false
      | some data =>
        let errCheck :=
          match jsField data "err" with
          | some v => jsTruthy v && !(v == Json.str "")
          | none => false
        if errCheck then false
        else if !(userKeyFields.any fun n =>
            (jsField data n).elim false jsTruthy) then false
        else true

/-! Login modelling. The credential POST and the user-key GET are
modelled by an oracle environment carrying the observable pieces of the
two HTTP responses that login and getUserKey inspect. -/

/-- Observable pieces of the GET /api.php/user response consumed by
getUserKey: the ok flag and status, the raw body text (used in error
messages) and its JSON parse (none when the body is not JSON). -/
structure UserApiResponse where
  ok : Bool
  status : Nat
  text : String
  parsed : Option Json

/-- Error message of getUserKey when the user endpoint returns non-ok. -/
def ukErrStatus (status : Nat) : String :=
  "Failed to get user info: " ++ toString status

/-- Error message of getUserKey when the body is not JSON. -/
def ukErrParse (text : String) : String :=
  "Failed to parse user API response as JSON: " ++ text.take 200

/-- Error message of getUserKey when no candidate field is truthy. -/
def ukErrNoKey (data : Json) : String :=
  "Failed to get user key from user data. Available fields: "
    ++ String.intercalate ", " (jsKeys data)

/-- getUserKey from auth.ts: fails on a non-ok status, on a non-JSON
body, and when none of the candidate user-key fields holds a truthy
value; otherwise returns the String(...) coercion of the first truthy
candidate. -/
def getUserKey (u : UserApiResponse) : Except String String :=
  if !u.ok then Except.error (ukErrStatus u.status)
  else
    match u.parsed with
    | none => Except.error (ukErrParse u.text)
    | some data =>
      match firstTruthyField data userKeyFields with
      | some v => Except.ok (jsString v)
      | none => Except.error (ukErrNoKey data)

/-- The character pattern looked for by the regex sessionid=([^;]+). -/
def sidPattern : List Char := "sessionid=".data

/-- Left-to-right scan of the Set-Cookie header for the first position
where the regex sessionid=([^;]+) matches, capturing the maximal
nonempty run of non-semicolon characters after sessionid=. When the
run at a given occurrence is empty the scan continues at the next
character, exactly as a regex engine advances its start position. -/
def extractSidChars : List Char → Option (List Char)
  | [] => none
  | c :: rest =>
    if sidPattern.isPrefixOf (c :: rest) then
      let captured := ((c :: rest).drop sidPattern.length).takeWhile
        fun ch => ch ≠ ';'
      if captured.isEmpty then extractSidChars rest else some captured
    else extractSidChars rest

/-- setCookie.match(/sessionid=([^;]+)/) restricted to the captured
group. -/
def extractSessionId (s : String) : Option String :=
  (extractSidChars s.data).map fun cs => String.mk cs

/-- Observable pieces of the HTTP interactions performed by login:
the status of the credential POST, its Set-Cookie header (none when
absent), the user-endpoint response, and the clock value used for
createdAt. -/
structure LoginEnv where
  status : Nat
  setCookie : Option String
  userApi : UserApiResponse
  now : Int

/-- Error message of login when the credential POST is not a 302. -/
def loginErr302 (status : Nat) : String :=
  "Login failed: expected 302, got " ++ toString status

/-- Error message of login when no Set-Cookie header is present. -/
def loginErrNoCookie : String := "Login failed: no Set-Cookie header"

/-- Error message of login when the cookie has no sessionid pattern. -/
def loginErrNoSid (header : String) : String :=
  "Login failed: no sessionid in Set-Cookie. Header was: " ++ header

/-- login from auth.ts. Fails when the response status is not 302, when
the Set-Cookie header is absent (or empty, which is equally falsy in
the JavaScript guard), when no sessionid pattern occurs in the cookie,
or when user-key resolution fails; otherwise returns the new session
stamped with the current time. -/
def login (env : LoginEnv) : Except String Session :=
  if env.status ≠ 302 then Except.error (loginErr302 env.status)
  else
    match env.setCookie with
    | none => Except.error loginErrNoCookie
    | some header =>
      if header = "" then Except.error loginErrNoCookie
      else
        match extractSessionId header with
        | none => Except.error (loginErrNoSid header)
        | some sid =>
          match getUserKey env.userApi with
          | Except.error m => Except.error m
          | Except.ok uk =>
            Except.ok { sessionId := sid, userKey := uk, createdAt := env.now }

/-- Oracle environment for getValidSession: the login environment, the
probe outcome observed when validating a stored session, and the clock
used by the expiry check. -/
structure SessionEnv where
  loginEnv : LoginEnv
  probe : ProbeOutcome
  now : Int

/-- The login-and-persist tail of getValidSession: on login failure the
error propagates and the stored session row is untouched; on success
the new session is persisted (single-row store) and returned fresh. -/
def loginAndStore (env : SessionEnv) (stored : Option Session) :
    Except String AuthResult × Option Session :=
  match login env.loginEnv with
  | Except.error m => (Except.error m, stored)
  | Except.ok s => (Except.ok { session := s, fresh := true }, some s)

/-- getValidSession from auth.ts: returns the stored session when it is
present, unexpired and passes live validation; otherwise performs a
fresh login and persists it. The second component is the session row
after the call. -/
def getValidSession (env : SessionEnv) (stored : Option Session) :
    Except String AuthResult × Option Session :=
  match stored with
  | some s =>
    if !(isSessionExpired env.now s) then
      if validateSession env.probe then
        (Except.ok { session := s, fresh := false }, some s)
      else loginAndStore env stored
    else loginAndStore env stored
  | none => loginAndStore env stored

/-! ## db.ts: the energy_readings table and insert semantics -/

/-- The EnergyReading interface of geostar-client.ts: a timestamp in
milliseconds and 16 numeric metric fields (modelled as integers). -/
structure EnergyReading where
  timestamp : Int
  total_heat_1 : Int
  total_heat_2 : Int
  total_cool_1 : Int
  total_cool_2 : Int
  total_electric_heat : Int
  total_fan_only : Int
  total_loop_pump : Int
  total_dehumidification : Int
  runtime_heat_1 : Int
  runtime_heat_2 : Int
  runtime_cool_1 : Int
  runtime_cool_2 : Int
  runtime_electric_heat : Int
  runtime_fan_only : Int
  runtime_dehumidification : Int
  total_power : Int
  deriving DecidableEq

/-- A persisted row of the energy_readings table. The gateway id column
holds the raw gwid value taken from the parsed location response. -/
structure StoredRow where
  gateway_id : Json
  reading : EnergyReading
  deriving DecidableEq

/-- The energy_readings table, as the ordered list of its rows. The
schema declares UNIQUE(gateway_id, timestamp); the insert functions
below maintain that invariant row by row. -/
abbrev ReadingsTable := List StoredRow

/-- Whether a row occupies the key (gatewayId, ts). -/
def rowHasKey (gatewayId : Json) (ts : Int) (row : StoredRow) : Bool :=
  row.gateway_id = gatewayId ∧ row.reading.timestamp = ts

/-- The reading stored under (gatewayId, ts), if any. -/
def lookupRow (tbl : ReadingsTable) (gatewayId : Json) (ts : Int) :
    Option EnergyReading :=
  (tbl.find? (rowHasKey gatewayId ts)).map StoredRow.reading

/-- One bound statement of the batch. With replace = false this is the
INSERT OR IGNORE of src/src/db.ts: an existing row with the same
(gateway_id, timestamp) leaves the table unchanged and reports no
change. Modelled from the spec: the replace = true branch, whose db.ts
generation is not in the sources (only its caller cron.ts is), performs
INSERT OR REPLACE, deleting any conflicting row and inserting the new
values, always reporting a change. The Bool result models
meta.changes > 0 for the statement. -/
def insertOne (tbl : ReadingsTable) (gatewayId : Json) (r : EnergyReading)
    (replace : Bool) : ReadingsTable × Bool :=
  if replace then
    (tbl.filter (fun row => !(rowHasKey gatewayId r.timestamp row))
      ++ [{ gateway_id := gatewayId, reading := r }], true)
  else if tbl.any (rowHasKey gatewayId r.timestamp) then (tbl, false)
  else (tbl ++ [{ gateway_id := gatewayId, reading := r }], true)

/-- Sequential execution of the batch, returning the final table and
the number of statements that changed a row. -/
def insertBatch (tbl : ReadingsTable) (gatewayId : Json)
    (readings : List EnergyReading) (replace : Bool) :
    ReadingsTable × Nat :=
  match readings with
  | [] => (tbl, 0)
  | r :: rest =>
    let step := insertOne tbl gatewayId r replace
    let tail := insertBatch step.1 gatewayId rest replace
    (tail.1, (if step.2 then 1 else 0) + tail.2)

/-- Counts returned by insertEnergyReadings. -/
structure InsertResult where
  table : ReadingsTable
  inserted : Nat
  skipped : Nat
  deriving DecidableEq

/-- insertEnergyReadings: batch-inserts the readings for one gateway and
counts inserted = statements with meta.changes > 0 and
skipped = readings.length - inserted, as in src/src/db.ts. The replace
flag selects the conflict policy of every statement in the batch
(Modelled from the spec: the replace-capable generation of db.ts is
missing from the sources; its skip branch coincides with the INSERT OR
IGNORE version that is present). -/
def insertEnergyReadings (tbl : ReadingsTable) (gatewayId : Json)
    (readings : List EnergyReading) (replace : Bool) : InsertResult :=
  let out := insertBatch tbl gatewayId readings replace
  { table := out.1, inserted := out.2, skipped := readings.length - out.2 }

/-- The per-gateway ingest step of runDailyFetch (cron.ts): split the
fetched readings at midnight of the end date (the boundary timestamp is
passed in already computed from the timezone offset), insert the
partition strictly before the boundary with skip-on-conflict semantics
and the partition at or after it with replace-on-conflict semantics,
and sum the two count pairs. -/
def dailyIngestStep (tbl : ReadingsTable) (gatewayId : Json)
    (readings : List EnergyReading) (midnightToday : Int) :
    ReadingsTable × Nat × Nat :=
  let yesterdayReadings := readings.filter
    fun r => r.timestamp < midnightToday
  let todayReadings := readings.filter
    fun r => r.timestamp ≥ midnightToday
  let yesterdayResult := insertEnergyReadings tbl gatewayId
    yesterdayReadings false
  let todayResult := insertEnergyReadings yesterdayResult.table gatewayId
    todayReadings true
  (todayResult.table,
    yesterdayResult.inserted + todayResult.inserted,
    yesterdayResult.skipped + todayResult.skipped)

/-- The per-gateway ingest step of backfillData (cron.ts): one insert
call over the whole fetched range, with the conflict policy taken from
the caller-supplied override flag and no day-boundary split. -/
def backfillIngestStep (tbl : ReadingsTable) (gatewayId : Json)
    (readings : List EnergyReading) (override : Bool) : InsertResult :=
  insertEnergyReadings tbl gatewayId readings override

/-! ## geostar-client.ts: gateway listing and energy response parsing -/

/-- The Gateway record built by getGateways. The gwid and name fields
hold the raw JavaScript values taken from the response (the fallback
search guarantees a string gwid; the primary branch copies whatever the
gateways array elements carry). -/
structure Gateway where
  gwid : Json
  name : Json
  location : Option Json
  deriving DecidableEq

/-- The gateway built by the fallback structural search from an object
whose gwid field is the string g: name is
gw.description || gw.name || gw.gwid. -/
def mkFallbackGateway (kvs : List (String × Json)) (g : String) : Gateway :=
  { gwid := Json.str g,
    name := (firstTruthyField (Json.obj kvs) ["description", "name"]).getD
      (Json.str g),
    location := jsField (Json.obj kvs) "location" }

/-- The match contributed by one visited node of the structural search:
a single gateway when the node is an object carrying a string-valued
gwid field, nothing otherwise. -/
def selfGateway (kvs : List (String × Json)) : List Gateway :=
  match kvs.lookup "gwid" with
  | some (Json.str g) => [mkFallbackGateway kvs g]
  | _ => []

mutual

/-- findGateways from getGateways: recursive structural search
collecting a gateway for every nested object exposing a string gwid
field. Primitive and null nodes contribute nothing (the source guards
recursion with typeof checks); arrays are traversed element-wise and
objects value-wise, the node itself being tested before its children. -/
def findGateways : Json → List Gateway
  | Json.obj kvs => selfGateway kvs ++ findGatewaysKvs kvs
  | Json.arr xs => findGatewaysList xs
  | _ => []

/-- Traversal of the entries of an object node. -/
def findGatewaysKvs : List (String × Json) → List Gateway
  | [] => []
  | (_, v) :: rest => findGateways v ++ findGatewaysKvs rest

/-- Traversal of the elements of an array node. -/
def findGatewaysList : List Json → List Gateway
  | [] => []
  | v :: rest => findGateways v ++ findGatewaysList rest

end

mutual

/-- Independent count of the nested objects carrying a string-valued
gwid field, stated directly as a structural count over the value. -/
def countGwidObjects : Json → Nat
  | Json.obj kvs =>
    (match kvs.lookup "gwid" with
     | some (Json.str _) => 1
     | _ => 0) + countGwidObjectsKvs kvs
  | Json.arr xs => countGwidObjectsList xs
  | _ => 0

/-- Count over the entries of an object node. -/
def countGwidObjectsKvs : List (String × Json) → Nat
  | [] => 0
  | (_, v) :: rest => countGwidObjects v + countGwidObjectsKvs rest

/-- Count over the elements of an array node. -/
def countGwidObjectsList : List Json → Nat
  | [] => 0
  | v :: rest => countGwidObjects v + countGwidObjectsList rest

end

/-- The primary branch test of getGateways: data.gateways is present
and is an array (arrays are always truthy). -/
def topGatewaysArray (d : Json) : Option (List Json) :=
  match jsField d "gateways" with
  | some (Json.arr xs) => some xs
  | _ => none

/-- The gateway built by the primary branch from one element of the
top-level gateways array: gwid is the raw gwid value, name is
gw.description || gw.gwid. -/
def mkPrimaryGateway (gw : Json) : Gateway :=
  { gwid := (jsField gw "gwid").getD Json.null,
    name := (firstTruthyField gw ["description"]).getD
      ((jsField gw "gwid").getD Json.null),
    location := jsField gw "location" }

/-- The response-shape handling of getGateways, applied to the parsed
location JSON: use the top-level gateways array when it is one,
otherwise fall back to the recursive structural search, and raise the
generic terminal error only when the search finds nothing. -/
def getGatewaysParse (d : Json) : Except String (List Gateway) :=
  match topGatewaysArray d with
  | some xs => Except.ok (xs.map mkPrimaryGateway)
  | none =>
    let gws := findGateways d
    if gws.isEmpty then
      Except.error ("No gateways found in location data. Keys: "
        ++ String.intercalate ", " (jsKeys d))
    else Except.ok gws

/-! Columnar energy response parsing. -/

/-- The reading record built by parseEnergyResponse. Field values are
the raw JavaScript values produced by the name-based row lookup (the
source annotates them as numbers but never checks). -/
structure EnergyReadingRaw where
  timestamp : Json
  total_heat_1 : Json
  total_heat_2 : Json
  total_cool_1 : Json
  total_cool_2 : Json
  total_electric_heat : Json
  total_fan_only : Json
  total_loop_pump : Json
  total_dehumidification : Json
  runtime_heat_1 : Json
  runtime_heat_2 : Json
  runtime_cool_1 : Json
  runtime_cool_2 : Json
  runtime_electric_heat : Json
  runtime_fan_only : Json
  runtime_dehumidification : Json
  total_power : Json
  deriving DecidableEq

/-- The 16 metric column names probed by parseEnergyResponse. -/
def metricFields : List String :=
  ["total_heat_1", "total_heat_2", "total_cool_1", "total_cool_2",
   "total_electric_heat", "total_fan_only", "total_loop_pump",
   "total_dehumidification", "runtime_heat_1", "runtime_heat_2",
   "runtime_cool_1", "runtime_cool_2", "runtime_electric_heat",
   "runtime_fan_only", "runtime_dehumidification", "total_power"]

/-- Projection of a parsed reading by metric field name (used to state
properties uniformly over the 16 fields). -/
def readingField (r : EnergyReadingRaw) (name : String) : Json :=
  if name = "total_heat_1" then r.total_heat_1
  else if name = "total_heat_2" then r.total_heat_2
  else if name = "total_cool_1" then r.total_cool_1
  else if name = "total_cool_2" then r.total_cool_2
  else if name = "total_electric_heat" then r.total_electric_heat
  else if name = "total_fan_only" then r.total_fan_only
  else if name = "total_loop_pump" then r.total_loop_pump
  else if name = "total_dehumidification" then r.total_dehumidification
  else if name = "runtime_heat_1" then r.runtime_heat_1
  else if name = "runtime_heat_2" then r.runtime_heat_2
  else if name = "runtime_cool_1" then r.runtime_cool_1
  else if name = "runtime_cool_2" then r.runtime_cool_2
  else if name = "runtime_electric_heat" then r.runtime_electric_heat
  else if name = "runtime_fan_only" then r.runtime_fan_only
  else if name = "runtime_dehumidification" then r.runtime_dehumidification
  else if name = "total_power" then r.total_power
  else Json.num 0

/-- The column-name-to-position map built by
columns.forEach((col, i) => colIndex.set(col, i)): for a string name,
the position of its last occurrence among the column entries (Map.set
overwrites; lookups in the source only ever use string keys, and a
non-string column entry can never equal one). -/
def colIndexOf (cols : List Json) (name : String) : Option Nat :=
  ((cols.enum.filter fun p => p.snd = Json.str name).getLast?).map Prod.fst

/-- JavaScript indexed access v[i] on an arbitrary value: array element,
character of a string, or numeric-string key of an object; undefined
(none) otherwise. -/
def jsIndexAccess : Json → Nat → Option Json
  | Json.arr xs, i => xs.get? i
  | Json.str s, i => (s.data.get? i).map fun c => Json.str (String.mk [c])
  | Json.obj kvs, i => kvs.lookup (toString i)
  | _, _ => none

/-- getVal from parseEnergyResponse: look the column name up in the
position map and read row[idx] ?? 0, the coalescing turning both an
absent cell and a null cell into 0; an unknown column name yields 0
directly. -/
def getVal (cols : List Json) (row : Json) (colName : String) : Json :=
  match colIndexOf cols colName with
  | none => Json.num 0
  | some idx =>
    match jsIndexAccess row idx with
    | some v => if v = Json.null then Json.num 0 else v
    | none => Json.num 0

/-- rows[i] || []: the i-th data row, an absent or falsy entry
degrading to the empty row. -/
def rowAt (rows : List Json) (i : Nat) : Json :=
  match rows.get? i with
  | some v => if jsTruthy v then v else Json.arr []
  | none => Json.arr []

/-- The reading built for index entry i. -/
def mkReadingRaw (cols rows : List Json) (i : Nat) (timestamp : Json) :
    EnergyReadingRaw :=
  let row := rowAt rows i
  { timestamp := timestamp,
    total_heat_1 := getVal cols row "total_heat_1",
    total_heat_2 := getVal cols row "total_heat_2",
    total_cool_1 := getVal cols row "total_cool_1",
    total_cool_2 := getVal cols row "total_cool_2",
    total_electric_heat := getVal cols row "total_electric_heat",
    total_fan_only := getVal cols row "total_fan_only",
    total_loop_pump := getVal cols row "total_loop_pump",
    total_dehumidification := getVal cols row "total_dehumidification",
    runtime_heat_1 := getVal cols row "runtime_heat_1",
    runtime_heat_2 := getVal cols row "runtime_heat_2",
    runtime_cool_1 := getVal cols row "runtime_cool_1",
    runtime_cool_2 := getVal cols row "runtime_cool_2",
    runtime_electric_heat := getVal cols row "runtime_electric_heat",
    runtime_fan_only := getVal cols row "runtime_fan_only",
    runtime_dehumidification := getVal cols row "runtime_dehumidification",
    total_power := getVal cols row "total_power" }

/-- An Option holding an array value, or nothing: models the combined
guard !field || !Array.isArray(field) of parseEnergyResponse. -/
def asArray : Option Json → Option (List Json)
  | some (Json.arr xs) => some xs
  | _ => none

/-- parseEnergyResponse from geostar-client.ts, applied to the parsed
response value: an absent or non-array columns, index or data field
yields the empty list; otherwise one reading is produced per index
entry, each metric looked up by column name in the corresponding row. -/
def parseEnergyResponse (d : Json) : List EnergyReadingRaw :=
  match asArray (jsField d "columns") with
  | none => []
  | some cols =>
    match asArray (jsField d "index") with
    | none => []
    | some idx =>
      match asArray (jsField d "data") with
      | none => []
      | some rows =>
        idx.enum.map fun p => mkReadingRaw cols rows p.fst p.snd

/-- The all-zero reading materialized for an index entry with no
backing data row. -/
def zeroReadingAt (timestamp : Json) : EnergyReadingRaw :=
  { timestamp := timestamp,
    total_heat_1 := Json.num 0,
    total_heat_2 := Json.num 0,
    total_cool_1 := Json.num 0,
    total_cool_2 := Json.num 0,
    total_electric_heat := Json.num 0,
    total_fan_only := Json.num 0,
    total_loop_pump := Json.num 0,
    total_dehumidification := Json.num 0,
    runtime_heat_1 := Json.num 0,
    runtime_heat_2 := Json.num 0,
    runtime_cool_1 := Json.num 0,
    runtime_cool_2 := Json.num 0,
    runtime_electric_heat := Json.num 0,
    runtime_fan_only := Json.num 0,
    runtime_dehumidification := Json.num 0,
    total_power := Json.num 0 }

/-! ## cron.ts: runDailyFetch and backfillData

The jobs are modelled as pure functions of an oracle environment (one
entry per HTTP interaction the source performs, the gateway fetch keyed
by gwid) and an explicit state (the single-row session store and the
readings table). Every vendor call the job issues is recorded in an
event trace, so retry counts are provable. Both jobs catch all errors,
so the models are total: no exception escapes. -/

/-- An error raised by a vendor call, tagged with whether it is the
AuthError class of geostar-client.ts. -/
structure JobError where
  isAuth : Bool
  msg : String
  deriving DecidableEq

/-- The per-gateway result slot of CronResult. -/
structure GatewayResult where
  gwid : Json
  inserted : Nat
  skipped : Nat
  error : Option String
  deriving DecidableEq

/-- The structured job result of cron.ts. -/
structure CronResult where
  success : Bool
  gateways : List GatewayResult
  error : Option String
  loginRefreshed : Bool
  deriving DecidableEq

/-- Oracle environment for one job invocation. -/
structure CronEnv where
  validSession : Except JobError AuthResult
  gatewaysFirst : Except JobError (List Gateway)
  reloginResult : Except JobError Session
  gatewaysRetry : Except JobError (List Gateway)
  fetchResult : Json → Except JobError (List EnergyReading)
  midnightToday : Int
  override : Bool

/-- State threaded through a job: the single session row and the
readings table. -/
structure JobState where
  sessionRow : Option Session
  table : ReadingsTable

/-- One vendor or store interaction performed by a job. -/
inductive JobEv where
  | getValidSessionCall : JobEv
  | listGatewaysCall : JobEv
  | loginCall : JobEv
  | storeSessionCall : JobEv
  | fetchCall (gwid : Json) : JobEv
  deriving DecidableEq

/-- Output of the per-gateway loop. -/
structure LoopOut where
  slots : List GatewayResult
  table : ReadingsTable
  allOk : Bool
  events : List JobEv

/-- The per-gateway loop of runDailyFetch: sequential iteration, one
result slot per gateway; a fetch failure is recorded in that slot and
flips the job success flag without aborting the remaining gateways; a
successful nonempty fetch runs the boundary-split ingest. -/
def dailyGatewayLoop (fetch : Json → Except JobError (List EnergyReading))
    (midnightToday : Int) :
    List Gateway → ReadingsTable → LoopOut
  | [], tbl => { slots := [], table := tbl, allOk := true, events := [] }
  | g :: rest, tbl =>
    match fetch g.gwid with
    | Except.error e =>
      let tail := dailyGatewayLoop fetch midnightToday rest tbl
      let slot : GatewayResult :=
        { gwid := g.gwid, inserted := 0, skipped := 0, error := some e.msg }
      { slots := slot :: tail.slots,
        table := tail.table,
        allOk := false,
        events := JobEv.fetchCall g.gwid :: tail.events }
    | Except.ok readings =>
      if readings.isEmpty then
        let tail := dailyGatewayLoop fetch midnightToday rest tbl
        let slot : GatewayResult :=
          { gwid := g.gwid, inserted := 0, skipped := 0, error := none }
        { slots := slot :: tail.slots,
          table := tail.table,
          allOk := tail.allOk,
          events := JobEv.fetchCall g.gwid :: tail.events }
      else
        let step := dailyIngestStep tbl g.gwid readings midnightToday
        let tail := dailyGatewayLoop fetch midnightToday rest step.1
        let slot : GatewayResult :=
          { gwid := g.gwid, inserted := step.2.1, skipped := step.2.2,
            error := none }
        { slots := slot :: tail.slots,
          table := tail.table,
          allOk := tail.allOk,
          events := JobEv.fetchCall g.gwid :: tail.events }

/-- The tail of runDailyFetch once a gateway list is in hand: the empty
list is a job-level failure, otherwise the per-gateway loop runs and
its outcome fills the result. -/
def finishDaily (env : CronEnv) (st : JobState) (fresh : Bool)
    (evs : List JobEv) (gs : List Gateway) :
    CronResult × JobState × List JobEv :=
  if gs.isEmpty then
    ({ success := false, gateways := [], error := some "No gateways found",
       loginRefreshed := fresh }, st, evs)
  else
    let out := dailyGatewayLoop env.fetchResult env.midnightToday gs st.table
    ({ success := out.allOk, gateways := out.slots, error := none,
       loginRefreshed := fresh },
     { st with table := out.table }, evs ++ out.events)

/-- runDailyFetch from cron.ts: obtain a valid session, list gateways
retrying exactly once after an AuthError (forced re-login, persisted),
then ingest per gateway. All failures are caught: a job-level failure
is reported through success = false and the error field. -/
def runDailyFetch (env : CronEnv) (st : JobState) :
    CronResult × JobState × List JobEv :=
  match env.validSession with
  | Except.error e =>
    ({ success := false, gateways := [], error := some e.msg,
       loginRefreshed := false }, st, [JobEv.getValidSessionCall])
  | Except.ok ar =>
    match env.gatewaysFirst with
    | Except.ok gs =>
      finishDaily env st ar.fresh
        [JobEv.getValidSessionCall, JobEv.listGatewaysCall] gs
    | Except.error e =>
      if e.isAuth then
        match env.reloginResult with
        | Except.error e2 =>
          ({ success := false, gateways := [], error := some e2.msg,
             loginRefreshed := ar.fresh }, st,
           [JobEv.getValidSessionCall, JobEv.listGatewaysCall,
            JobEv.loginCall])
        | Except.ok s2 =>
          let st2 := { st with sessionRow := some s2 }
          match env.gatewaysRetry with
          | Except.error e3 =>
            ({ success := false, gateways := [], error := some e3.msg,
               loginRefreshed := true }, st2,
             [JobEv.getValidSessionCall, JobEv.listGatewaysCall,
              JobEv.loginCall, JobEv.storeSessionCall,
              JobEv.listGatewaysCall])
          | Except.ok gs =>
            finishDaily env st2 true
              [JobEv.getValidSessionCall, JobEv.listGatewaysCall,
               JobEv.loginCall, JobEv.storeSessionCall,
               JobEv.listGatewaysCall] gs
      else
        ({ success := false, gateways := [], error := some e.msg,
           loginRefreshed := ar.fresh }, st,
         [JobEv.getValidSessionCall, JobEv.listGatewaysCall])

/-- The per-gateway loop of backfillData: identical isolation, but the
whole fetched range goes through one insert call whose conflict policy
is the caller-supplied override flag. -/
def backfillGatewayLoop (fetch : Json → Except JobError (List EnergyReading))
    (override : Bool) :
    List Gateway → ReadingsTable → LoopOut
  | [], tbl => { slots := [], table := tbl, allOk := true, events := [] }
  | g :: rest, tbl =>
    match fetch g.gwid with
    | Except.error e =>
      let tail := backfillGatewayLoop fetch override rest tbl
      let slot : GatewayResult :=
        { gwid := g.gwid, inserted := 0, skipped := 0, error := some e.msg }
      { slots := slot :: tail.slots,
        table := tail.table,
        allOk := false,
        events := JobEv.fetchCall g.gwid :: tail.events }
    | Except.ok readings =>
      if readings.isEmpty then
        let tail := backfillGatewayLoop fetch override rest tbl
        let slot : GatewayResult :=
          { gwid := g.gwid, inserted := 0, skipped := 0, error := none }
        { slots := slot :: tail.slots,
          table := tail.table,
          allOk := tail.allOk,
          events := JobEv.fetchCall g.gwid :: tail.events }
      else
        let step := backfillIngestStep tbl g.gwid readings override
        let tail := backfillGatewayLoop fetch override rest step.table
        let slot : GatewayResult :=
          { gwid := g.gwid, inserted := step.inserted,
            skipped := step.skipped, error := none }
        { slots := slot :: tail.slots,
          table := tail.table,
          allOk := tail.allOk,
          events := JobEv.fetchCall g.gwid :: tail.events }

/-- The tail of backfillData once a gateway list is in hand. -/
def finishBackfill (env : CronEnv) (st : JobState) (fresh : Bool)
    (evs : List JobEv) (gs : List Gateway) :
    CronResult × JobState × List JobEv :=
  if gs.isEmpty then
    ({ success := false, gateways := [], error := some "No gateways found",
       loginRefreshed := fresh }, st, evs)
  else
    let out := backfillGatewayLoop env.fetchResult env.override gs st.table
    ({ success := out.allOk, gateways := out.slots, error := none,
       loginRefreshed := fresh },
     { st with table := out.table }, evs ++ out.events)

/-- backfillData from cron.ts: same session acquisition and single
forced re-login retry around gateway listing as runDailyFetch, then the
override-driven per-gateway loop over the caller-supplied range. -/
def runBackfill (env : CronEnv) (st : JobState) :
    CronResult × JobState × List JobEv :=
  match env.validSession with
  | Except.error e =>
    ({ success := false, gateways := [], error := some e.msg,
       loginRefreshed := false }, st, [JobEv.getValidSessionCall])
  | Except.ok ar =>
    match env.gatewaysFirst with
    | Except.ok gs =>
      finishBackfill env st ar.fresh
        [JobEv.getValidSessionCall, JobEv.listGatewaysCall] gs
    | Except.error e =>
      if e.isAuth then
        match env.reloginResult with
        | Except.error e2 =>
          ({ success := false, gateways := [], error := some e2.msg,
             loginRefreshed := ar.fresh }, st,
           [JobEv.getValidSessionCall, JobEv.listGatewaysCall,
            JobEv.loginCall])
        | Except.ok s2 =>
          let st2 := { st with sessionRow := some s2 }
          match env.gatewaysRetry with
          | Except.error e3 =>
            ({ success := false, gateways := [], error := some e3.msg,
               loginRefreshed := true }, st2,
             [JobEv.getValidSessionCall, JobEv.listGatewaysCall,
              JobEv.loginCall, JobEv.storeSessionCall,
              JobEv.listGatewaysCall])
          | Except.ok gs =>
            finishBackfill env st2 true
              [JobEv.getValidSessionCall, JobEv.listGatewaysCall,
               JobEv.loginCall, JobEv.storeSessionCall,
               JobEv.listGatewaysCall] gs
      else
        ({ success := false, gateways := [], error := some e.msg,
           loginRefreshed := ar.fresh }, st,
         [JobEv.getValidSessionCall, JobEv.listGatewaysCall])

/-! ## Concrete sample data for instantiating the theorems -/

/-- A reading at the given timestamp whose sixteen metric fields all
hold the given value. -/
def sampleReading (ts v : Int) : EnergyReading :=
  { timestamp := ts, total_heat_1 := v, total_heat_2 := v,
    total_cool_1 := v, total_cool_2 := v, total_electric_heat := v,
    total_fan_only := v, total_loop_pump := v,
    total_dehumidification := v, runtime_heat_1 := v,
    runtime_heat_2 := v, runtime_cool_1 := v, runtime_cool_2 := v,
    runtime_electric_heat := v, runtime_fan_only := v,
    runtime_dehumidification := v, total_power := v }

/-- A sample gateway with gwid G1. -/
def sampleGateway1 : Gateway :=
  { gwid := Json.str "G1", name := Json.str "G1", location := none }

/-- A sample gateway with gwid G2. -/
def sampleGateway2 : Gateway :=
  { gwid := Json.str "G2", name := Json.str "G2", location := none }

/-- A sample session. -/
def sampleSession : Session :=
  { sessionId := "sid", userKey := "uk", createdAt := 0 }

/-- A fetch oracle answering G1 with one reading at timestamp 500 and
failing on every other gateway. -/
def sampleFetch : Json → Except JobError (List EnergyReading) :=
  fun g =>
    if g = Json.str "G1" then Except.ok [sampleReading 500 7]
    else Except.error { isAuth := false, msg := "fetch failed" }

/-- A sample backfill environment: session available, one gateway,
override on. -/
def sampleBackfillEnv : CronEnv :=
  { validSession := Except.ok { session := sampleSession, fresh := false },
    gatewaysFirst := Except.ok [sampleGateway1],
    reloginResult := Except.error { isAuth := false, msg := "unused" },
    gatewaysRetry := Except.error { isAuth := false, msg := "unused" },
    fetchResult := sampleFetch,
    midnightToday := 0,
    override := true }

/-- A sample job state whose table already stores a conflicting row for
G1 at timestamp 500. -/
def sampleState : JobState :=
  { sessionRow := none,
    table := [{ gateway_id := Json.str "G1", reading := sampleReading 500 1 }] }

/-- The session produced by the sample forced re-login. -/
def sampleSession2 : Session :=
  { sessionId := "sid2", userKey := "uk2", createdAt := 5 }

/-- A sample daily-fetch environment whose first gateway listing raises
AuthError, whose re-login succeeds, and whose retried listing succeeds
with one gateway. -/
def sampleRetryEnv : CronEnv :=
  { validSession := Except.ok { session := sampleSession, fresh := false },
    gatewaysFirst := Except.error { isAuth := true, msg := "Session expired" },
    reloginResult := Except.ok sampleSession2,
    gatewaysRetry := Except.ok [sampleGateway1],
    fetchResult := sampleFetch,
    midnightToday := 1000,
    override := false }

/-- A sample daily-fetch environment listing gateways G1 (fetch
succeeds) and G2 (fetch throws). -/
def sampleIsolationEnv : CronEnv :=
  { validSession := Except.ok { session := sampleSession, fresh := false },
    gatewaysFirst := Except.ok [sampleGateway1, sampleGateway2],
    reloginResult := Except.error { isAuth := false, msg := "unused" },
    gatewaysRetry := Except.error { isAuth := false, msg := "unused" },
    fetchResult := sampleFetch,
    midnightToday := 1000,
    override := false }

/-- A sample login environment whose credential POST answers 200. -/
def sampleLoginEnv200 : LoginEnv :=
  { status := 200,
    setCookie := none,
    userApi := { ok := true, status := 200, text := "", parsed := none },
    now := 0 }

/-- A sample session environment around the 200-status login. -/
def sampleSessionEnv : SessionEnv :=
  { loginEnv := sampleLoginEnv200,
    probe := ProbeOutcome.netFailure,
    now := 0 }

/-! ## Helper lemmas -/

/-- A list splits into the part satisfying a predicate and the rest. -/
theorem length_filter_split {α : Type} (p : α → Bool) (l : List α) :
    (l.filter p).length + (l.filter fun a => !(p a)).length = l.length := by
  induction l with
  | nil => rfl
  | cons a l ih =>
    cases h : p a <;> simp [List.filter_cons, h, ← ih] <;> omega

/-- Looking a key up in a table extended by one non-conflicting row
gives the original answer. -/
theorem lookupRow_append_single (tbl : ReadingsTable) (g0 : Json) (ts : Int)
    (row : StoredRow) (hkey : rowHasKey g0 ts row = false) :
    lookupRow (tbl ++ [row]) g0 ts = lookupRow tbl g0 ts := by
  unfold lookupRow
  rw [List.find?_append]
  have hfind : List.find? (rowHasKey g0 ts) [row] = none := by
    simp [List.find?, hkey]
  rw [hfind]
  cases List.find? (rowHasKey g0 ts) tbl <;> rfl

/-- Filtering rows out of a table affects no lookup whose matching rows
are all kept. -/
theorem find?_filter_of_excl (p q : StoredRow → Bool)
    (hpq : ∀ x, p x = true → q x = true) :
    ∀ tbl : ReadingsTable, List.find? p (tbl.filter q) = List.find? p tbl := by
  intro tbl
  induction tbl with
  | nil => rfl
  | cons row rest ih =>
    by_cases hrow : p row = true
    · rw [List.filter_cons, hpq row hrow]
      simp [List.find?, hrow]
    · simp only [Bool.not_eq_true] at hrow
      rw [List.filter_cons]
      cases hq : q row with
      | true => simp [List.find?, hrow, ih]
      | false => simp [List.find?, hrow, ih]

/-- Inserting one reading changes the stored value of no other key (the
replace branch deletes only conflicting rows, the skip branch appends
only a row of the inserted key, and both append at the end of the
table). -/
theorem lookupRow_insertOne_other (tbl : ReadingsTable) (g g0 : Json)
    (r : EnergyReading) (mode : Bool) (ts : Int)
    (hne : ¬(g = g0 ∧ r.timestamp = ts)) :
    lookupRow (insertOne tbl g r mode).1 g0 ts = lookupRow tbl g0 ts := by
  have hkey : rowHasKey g0 ts { gateway_id := g, reading := r } = false := by
    simp only [rowHasKey, decide_eq_false_iff_not]
    rintro ⟨h1, h2⟩
    exact hne ⟨h1, h2⟩
  unfold insertOne
  cases mode with
  | true =>
    simp only [if_true]
    rw [lookupRow_append_single _ _ _ _ hkey]
    unfold lookupRow
    rw [find?_filter_of_excl]
    intro x hx
    simp only [rowHasKey, decide_eq_true_eq] at hx
    simp only [Bool.not_eq_true', rowHasKey, decide_eq_false_iff_not]
    rintro ⟨h1, h2⟩
    exact hne ⟨h1.symm.trans hx.1, h2.symm.trans hx.2⟩
  | false =>
    by_cases hany : tbl.any (rowHasKey g r.timestamp) = true
    · simp [hany]
    · simp only [Bool.not_eq_true] at hany
      simp only [hany, Bool.false_eq_true, if_false]
      exact lookupRow_append_single tbl g0 ts _ hkey

/-- Batch insertion changes the stored value of no key that none of the
batch readings occupies. -/
theorem lookupRow_insertBatch_other (g g0 : Json) (mode : Bool) (ts : Int) :
    ∀ (rs : List EnergyReading) (tbl : ReadingsTable),
    (∀ r ∈ rs, ¬(g = g0 ∧ r.timestamp = ts)) →
    lookupRow (insertBatch tbl g rs mode).1 g0 ts = lookupRow tbl g0 ts := by
  intro rs
  induction rs with
  | nil => intro tbl _; rfl
  | cons r rest ih =>
    intro tbl h
    simp only [insertBatch]
    rw [ih (insertOne tbl g r mode).1 fun x hx => h x (List.mem_cons_of_mem _ hx)]
    exact lookupRow_insertOne_other tbl g g0 r mode ts
      (h r (List.mem_cons_self r rest))

/-- Skip-mode single insertion preserves every already-stored row. -/
theorem lookupRow_insertOne_skip_preserved (tbl : ReadingsTable)
    (g g0 : Json) (ts : Int) (old r : EnergyReading)
    (h : lookupRow tbl g0 ts = some old) :
    lookupRow (insertOne tbl g r false).1 g0 ts = some old := by
  unfold insertOne
  by_cases hany : tbl.any (rowHasKey g r.timestamp) = true
  · simpa [hany] using h
  · simp only [Bool.not_eq_true] at hany
    simp only [hany, Bool.false_eq_true, if_false]
    have hkey : rowHasKey g0 ts { gateway_id := g, reading := r } = false := by
      by_contra hk
      simp only [Bool.not_eq_false, rowHasKey, decide_eq_true_eq] at hk
      have : tbl.any (rowHasKey g r.timestamp) = true := by
        rw [List.any_eq_true]
        unfold lookupRow at h
        cases hfind : List.find? (rowHasKey g0 ts) tbl with
        | none => rw [hfind] at h; simp at h
        | some row =>
          refine ⟨row, List.mem_of_find?_eq_some hfind, ?_⟩
          have hr := List.find?_some hfind
          simp only [rowHasKey, decide_eq_true_eq] at hr
          simp only [rowHasKey, decide_eq_true_eq]
          exact ⟨hr.1.trans hk.1.symm, hr.2.trans hk.2.symm⟩
      rw [this] at hany
      exact absurd hany (by decide)
    rw [lookupRow_append_single tbl g0 ts _ hkey]
    exact h

/-- Skip-mode batch insertion preserves every already-stored row. -/
theorem lookupRow_insertBatch_skip_preserved (g g0 : Json) (ts : Int)
    (old : EnergyReading) :
    ∀ (rs : List EnergyReading) (tbl : ReadingsTable),
    lookupRow tbl g0 ts = some old →
    lookupRow (insertBatch tbl g rs false).1 g0 ts = some old := by
  intro rs
  induction rs with
  | nil => intro tbl h; exact h
  | cons r rest ih =>
    intro tbl h
    simp only [insertBatch]
    exact ih _ (lookupRow_insertOne_skip_preserved tbl g g0 ts old r h)

/-- A key is stored exactly when some row matches it. -/
theorem lookupRow_eq_none_iff (tbl : ReadingsTable) (g : Json) (ts : Int) :
    lookupRow tbl g ts = none ↔ tbl.any (rowHasKey g ts) = false := by
  unfold lookupRow
  rw [Option.map_eq_none', List.find?_eq_none, List.any_eq_false]

/-- Replace-mode single insertion stores exactly the inserted reading
under its key. -/
theorem lookupRow_insertOne_replace_self (tbl : ReadingsTable) (g : Json)
    (r : EnergyReading) :
    lookupRow (insertOne tbl g r true).1 g r.timestamp = some r := by
  unfold insertOne lookupRow
  simp only [if_true]
  rw [List.find?_append]
  have h1 : List.find? (rowHasKey g r.timestamp)
      (tbl.filter fun row => !(rowHasKey g r.timestamp row)) = none := by
    rw [List.find?_eq_none]
    intro x hx
    rcases List.mem_filter.mp hx with ⟨_, hkeep⟩
    simp only [Bool.not_eq_true'] at hkeep
    simp [hkeep]
  have h2 : rowHasKey g r.timestamp
      { gateway_id := g, reading := r } = true := by
    simp [rowHasKey]
  rw [h1]
  simp [List.find?, h2]

/-- Replace-mode batches store the fetched value of every reading whose
timestamp occurs once in the batch. -/
theorem lookupRow_insertBatch_replace_mem (g : Json) :
    ∀ (rs : List EnergyReading) (tbl : ReadingsTable),
    (rs.map EnergyReading.timestamp).Nodup →
    ∀ r ∈ rs,
      lookupRow (insertBatch tbl g rs true).1 g r.timestamp = some r := by
  intro rs
  induction rs with
  | nil => intro tbl _ r hr; cases hr
  | cons x rest ih =>
    intro tbl hnd r hr
    simp only [List.map_cons, List.nodup_cons] at hnd
    rcases List.mem_cons.mp hr with rfl | hmem
    · simp only [insertBatch]
      rw [lookupRow_insertBatch_other]
      · exact lookupRow_insertOne_replace_self tbl g r
      · intro y hy
        rintro ⟨-, hts⟩
        exact hnd.1 (by rw [← hts]; exact List.mem_map_of_mem _ hy)
    · simp only [insertBatch]
      exact ih _ hnd.2 r hmem

/-- The number of changed statements never exceeds the batch length. -/
theorem insertBatch_inserted_le (g : Json) (mode : Bool) :
    ∀ (rs : List EnergyReading) (tbl : ReadingsTable),
    (insertBatch tbl g rs mode).2 ≤ rs.length := by
  intro rs
  induction rs with
  | nil => intro tbl; simp [insertBatch]
  | cons r rest ih =>
    intro tbl
    simp only [insertBatch, List.length_cons]
    have := ih (insertOne tbl g r mode).1
    cases (insertOne tbl g r mode).2 <;> simp <;> omega

/-- Every replace-mode statement changes a row. -/
theorem insertBatch_replace_count (g : Json) :
    ∀ (rs : List EnergyReading) (tbl : ReadingsTable),
    (insertBatch tbl g rs true).2 = rs.length := by
  intro rs
  induction rs with
  | nil => intro tbl; rfl
  | cons r rest ih =>
    intro tbl
    simp only [insertBatch, List.length_cons]
    have hone : (insertOne tbl g r true).2 = true := by
      unfold insertOne; simp
    rw [hone, ih]
    simp [Nat.add_comm]

/-- In skip mode, with pairwise distinct timestamps, the changed
statements are exactly the readings whose key is absent from the
initial table. -/
theorem insertBatch_skip_count (g : Json) :
    ∀ (rs : List EnergyReading) (tbl : ReadingsTable),
    (rs.map EnergyReading.timestamp).Nodup →
    (insertBatch tbl g rs false).2
      = (rs.filter fun r => (lookupRow tbl g r.timestamp).isNone).length := by
  intro rs
  induction rs with
  | nil => intro tbl _; rfl
  | cons r rest ih =>
    intro tbl hnd
    simp only [List.map_cons, List.nodup_cons] at hnd
    simp only [insertBatch, List.filter_cons]
    by_cases hany : tbl.any (rowHasKey g r.timestamp) = true
    · have hnone : (lookupRow tbl g r.timestamp).isNone = false := by
        cases hl : lookupRow tbl g r.timestamp with
        | none => rw [(lookupRow_eq_none_iff tbl g r.timestamp).mp hl] at hany
                  cases hany
        | some v => rfl
      have hone : insertOne tbl g r false = (tbl, false) := by
        unfold insertOne; simp [hany]
      rw [hone]
      simp only [hnone, Bool.false_eq_true, if_false]
      simpa using ih tbl hnd.2
    · simp only [Bool.not_eq_true] at hany
      have hnone : (lookupRow tbl g r.timestamp).isNone = true := by
        rw [Option.isNone_iff_eq_none, lookupRow_eq_none_iff]
        exact hany
      have hone : insertOne tbl g r false
          = (tbl ++ [{ gateway_id := g, reading := r }], true) := by
        unfold insertOne; simp [hany]
      rw [hone]
      simp only [hnone, if_true, List.length_cons]
      have hcongr : (rest.filter fun x =>
            (lookupRow (tbl ++ [{ gateway_id := g, reading := r }]) g
              x.timestamp).isNone)
          = (rest.filter fun x => (lookupRow tbl g x.timestamp).isNone) := by
        apply List.filter_congr
        intro x hx
        have hkey : rowHasKey g x.timestamp
            { gateway_id := g, reading := r } = false := by
          simp only [rowHasKey, decide_eq_false_iff_not]
          rintro ⟨-, hts⟩
          exact hnd.1 (by rw [hts]; exact List.mem_map_of_mem _ hx)
        rw [lookupRow_append_single tbl g x.timestamp _ hkey]
      rw [ih _ hnd.2]
      simp only [hcongr]
      omega

/-- inserted and skipped always sum to the batch length. -/
theorem insertEnergyReadings_counts (tbl : ReadingsTable) (g : Json)
    (rs : List EnergyReading) (mode : Bool) :
    (insertEnergyReadings tbl g rs mode).inserted
      + (insertEnergyReadings tbl g rs mode).skipped = rs.length := by
  have h := insertBatch_inserted_le g mode rs tbl
  simp only [insertEnergyReadings]
  omega

/-- In skip mode with distinct timestamps, skipped counts exactly the
readings whose key was already stored. -/
theorem insertEnergyReadings_skip_skipped (tbl : ReadingsTable) (g : Json)
    (rs : List EnergyReading)
    (hnd : (rs.map EnergyReading.timestamp).Nodup) :
    (insertEnergyReadings tbl g rs false).skipped
      = (rs.filter fun r => (lookupRow tbl g r.timestamp).isSome).length := by
  have hsplit := length_filter_split
    (fun r => (lookupRow tbl g r.timestamp).isSome) rs
  have hcount := insertBatch_skip_count g rs tbl hnd
  have hle := insertBatch_inserted_le g false rs tbl
  have hcongr : (rs.filter fun r => !(lookupRow tbl g r.timestamp).isSome)
      = (rs.filter fun r => (lookupRow tbl g r.timestamp).isNone) := by
    apply List.filter_congr
    intro x _
    cases lookupRow tbl g x.timestamp <;> rfl
  rw [hcongr] at hsplit
  simp only [insertEnergyReadings] at *
  omega

/-- Replace mode inserts everything and skips nothing. -/
theorem insertEnergyReadings_replace_counts (tbl : ReadingsTable) (g : Json)
    (rs : List EnergyReading) :
    (insertEnergyReadings tbl g rs true).inserted = rs.length
    ∧ (insertEnergyReadings tbl g rs true).skipped = 0 := by
  have h := insertBatch_replace_count g rs tbl
  simp only [insertEnergyReadings]
  omega

/-! ## Claim theorems -/

/-- C1: In runDailyFetch, every fetched reading with timestamp strictly
below the today-boundary is inserted with skip-on-conflict semantics
(an existing row with the same (gatewayId, timestamp) is left unchanged
and counted as skipped), and every reading with timestamp at or above
the boundary is inserted with replace-on-conflict semantics (the stored
row reflects the latest fetched values). Stated over the per-gateway
ingest step the job performs, for batches with pairwise distinct
timestamps: settled rows keyed below the boundary are preserved, rows
at or above it end up storing the fetched values, the skipped count is
exactly the number of below-boundary readings whose key already
existed, and inserted and skipped sum to the batch size. -/
theorem C1_daily_boundary_semantics (tbl : ReadingsTable) (gatewayId : Json)
    (readings : List EnergyReading) (midnightToday : Int)
    (hnd : (readings.map EnergyReading.timestamp).Nodup) :
    (∀ r ∈ readings, r.timestamp < midnightToday →
      ∀ old, lookupRow tbl gatewayId r.timestamp = some old →
        lookupRow (dailyIngestStep tbl gatewayId readings midnightToday).1
          gatewayId r.timestamp = some old)
    ∧ (∀ r ∈ readings, midnightToday ≤ r.timestamp →
        lookupRow (dailyIngestStep tbl gatewayId readings midnightToday).1
          gatewayId r.timestamp = some r)
    ∧ (dailyIngestStep tbl gatewayId readings midnightToday).2.2
        = ((readings.filter fun r => r.timestamp < midnightToday).filter
            fun r => (lookupRow tbl gatewayId r.timestamp).isSome).length
    ∧ (dailyIngestStep tbl gatewayId readings midnightToday).2.1
        + (dailyIngestStep tbl gatewayId readings midnightToday).2.2
        = readings.length := by
  have hydsub : ((readings.filter fun r => r.timestamp < midnightToday).map
      EnergyReading.timestamp).Sublist (readings.map EnergyReading.timestamp) :=
    List.Sublist.map _ (List.filter_sublist readings)
  have hydnd := List.Nodup.sublist hydsub hnd
  have htdsub : ((readings.filter fun r => r.timestamp ≥ midnightToday).map
      EnergyReading.timestamp).Sublist (readings.map EnergyReading.timestamp) :=
    List.Sublist.map _ (List.filter_sublist readings)
  have htdnd := List.Nodup.sublist htdsub hnd
  refine ⟨?_, ?_, ?_, ?_⟩
  · intro r hr hlt old hold
    simp only [dailyIngestStep, insertEnergyReadings]
    rw [lookupRow_insertBatch_other]
    · exact lookupRow_insertBatch_skip_preserved gatewayId gatewayId
        r.timestamp old _ tbl hold
    · intro x hx
      rintro ⟨-, hts⟩
      rcases List.mem_filter.mp hx with ⟨-, hge⟩
      simp only [ge_iff_le, decide_eq_true_eq] at hge
      omega
  · intro r hr hge
    have hmem : r ∈ readings.filter fun x => x.timestamp ≥ midnightToday :=
      List.mem_filter.mpr ⟨hr, by simpa using hge⟩
    simp only [dailyIngestStep, insertEnergyReadings]
    exact lookupRow_insertBatch_replace_mem gatewayId _ _ htdnd r hmem
  · simp only [dailyIngestStep]
    rw [insertEnergyReadings_skip_skipped tbl gatewayId _ hydnd]
    have := insertEnergyReadings_replace_counts
      (insertEnergyReadings tbl gatewayId
        (readings.filter fun r => r.timestamp < midnightToday) false).table
      gatewayId (readings.filter fun r => r.timestamp ≥ midnightToday)
    omega
  · simp only [dailyIngestStep]
    have hy := insertEnergyReadings_counts tbl gatewayId
      (readings.filter fun r => r.timestamp < midnightToday) false
    have ht := insertEnergyReadings_counts
      (insertEnergyReadings tbl gatewayId
        (readings.filter fun r => r.timestamp < midnightToday) false).table
      gatewayId (readings.filter fun r => r.timestamp ≥ midnightToday) true
    have hsplit := length_filter_split
      (fun r : EnergyReading => decide (r.timestamp < midnightToday)) readings
    have hcongr : (readings.filter fun r =>
          !(decide (r.timestamp < midnightToday)))
        = readings.filter fun r => r.timestamp ≥ midnightToday := by
      apply List.filter_congr
      intro x _
      cases hdec : decide (x.timestamp < midnightToday) with
      | false =>
        have hx := of_decide_eq_false hdec
        simp only [Bool.not_false, ge_iff_le]
        exact (decide_eq_true (by omega)).symm
      | true =>
        have hx := of_decide_eq_true hdec
        simp only [Bool.not_true, ge_iff_le]
        exact (decide_eq_false (by omega)).symm
    simp only [hcongr] at hsplit
    omega

/-- Witness for C1 at a concrete table and batch: the pre-existing
below-boundary row keeps its settled values, the at-or-above-boundary
reading is stored as fetched, one reading is counted skipped and the
counts sum to the batch size. -/
theorem C1_daily_boundary_semantics_witness :
    lookupRow (dailyIngestStep
        [{ gateway_id := Json.str "G1", reading := sampleReading 500 1 }]
        (Json.str "G1") [sampleReading 500 2, sampleReading 1500 3] 1000).1
      (Json.str "G1") 500 = some (sampleReading 500 1)
    ∧ lookupRow (dailyIngestStep
        [{ gateway_id := Json.str "G1", reading := sampleReading 500 1 }]
        (Json.str "G1") [sampleReading 500 2, sampleReading 1500 3] 1000).1
      (Json.str "G1") 1500 = some (sampleReading 1500 3)
    ∧ (dailyIngestStep
        [{ gateway_id := Json.str "G1", reading := sampleReading 500 1 }]
        (Json.str "G1") [sampleReading 500 2, sampleReading 1500 3] 1000).2.2
        = 1
    ∧ (dailyIngestStep
        [{ gateway_id := Json.str "G1", reading := sampleReading 500 1 }]
        (Json.str "G1") [sampleReading 500 2, sampleReading 1500 3] 1000).2.1
      + (dailyIngestStep
        [{ gateway_id := Json.str "G1", reading := sampleReading 500 1 }]
        (Json.str "G1") [sampleReading 500 2, sampleReading 1500 3] 1000).2.2
        = 2 := by
  have h := C1_daily_boundary_semantics
    [{ gateway_id := Json.str "G1", reading := sampleReading 500 1 }]
    (Json.str "G1") [sampleReading 500 2, sampleReading 1500 3] 1000
    (by decide)
  refine ⟨?_, ?_, ?_, ?_⟩
  · exact h.1 (sampleReading 500 2) (by decide) (by decide)
      (sampleReading 500 1) (by decide)
  · exact h.2.1 (sampleReading 1500 3) (by decide) (by decide)
  · exact h.2.2.1.trans (by decide)
  · exact h.2.2.2.trans (by decide)

/-- The backfill loop leaves every key of a gateway outside the list
untouched. -/
theorem backfillLoop_preserve
    (fetch : Json → Except JobError (List EnergyReading)) (override : Bool)
    (gid : Json) (ts : Int) :
    ∀ (gs : List Gateway) (tbl : ReadingsTable),
    (∀ g0 ∈ gs, g0.gwid ≠ gid) →
    lookupRow (backfillGatewayLoop fetch override gs tbl).table gid ts
      = lookupRow tbl gid ts := by
  intro gs
  induction gs with
  | nil => intro tbl _; rfl
  | cons g0 rest ih =>
    intro tbl hne
    have hg0 : g0.gwid ≠ gid := hne g0 (List.mem_cons_self g0 rest)
    have hrest : ∀ g1 ∈ rest, g1.gwid ≠ gid :=
      fun g1 h1 => hne g1 (List.mem_cons_of_mem _ h1)
    simp only [backfillGatewayLoop]
    cases hf : fetch g0.gwid with
    | error e => exact ih tbl hrest
    | ok readings =>
      cases hemp : readings.isEmpty with
      | true => simp only [hemp, if_true]; exact ih tbl hrest
      | false =>
        simp only [hemp, Bool.false_eq_true, if_false]
        rw [ih _ hrest]
        simp only [backfillIngestStep, insertEnergyReadings]
        apply lookupRow_insertBatch_other
        intro r _
        rintro ⟨hg, -⟩
        exact hg0 hg

/-- With override on and pairwise distinct gwids, the backfill loop
stores the fetched value of every reading of every gateway. -/
theorem backfillLoop_override_stores
    (fetch : Json → Except JobError (List EnergyReading)) :
    ∀ (gs : List Gateway) (tbl : ReadingsTable),
    (gs.map Gateway.gwid).Nodup →
    ∀ gw ∈ gs, ∀ rs, fetch gw.gwid = Except.ok rs →
    (rs.map EnergyReading.timestamp).Nodup →
    ∀ r ∈ rs,
      lookupRow (backfillGatewayLoop fetch true gs tbl).table gw.gwid
        r.timestamp = some r := by
  intro gs
  induction gs with
  | nil => intro tbl _ gw hgw; cases hgw
  | cons g0 rest ih =>
    intro tbl hnd gw hgw rs hf hrsnd r hr
    simp only [List.map_cons, List.nodup_cons] at hnd
    rcases List.mem_cons.mp hgw with rfl | hmem
    · simp only [backfillGatewayLoop, hf]
      cases hemp : rs.isEmpty with
      | true =>
        rw [List.isEmpty_iff] at hemp
        subst hemp
        cases hr
      | false =>
        simp only [hemp, Bool.false_eq_true, if_false]
        rw [backfillLoop_preserve]
        · simp only [backfillIngestStep, insertEnergyReadings]
          exact lookupRow_insertBatch_replace_mem gw.gwid rs tbl hrsnd r hr
        · intro g1 h1 heq
          exact hnd.1 (heq ▸ List.mem_map_of_mem Gateway.gwid h1)
    · simp only [backfillGatewayLoop]
      cases hf0 : fetch g0.gwid with
      | error e => exact ih tbl hnd.2 gw hmem rs hf hrsnd r hr
      | ok readings =>
        cases hemp : readings.isEmpty with
        | true =>
          simp only [hemp, if_true]
          exact ih tbl hnd.2 gw hmem rs hf hrsnd r hr
        | false =>
          simp only [hemp, Bool.false_eq_true, if_false]
          exact ih _ hnd.2 gw hmem rs hf hrsnd r hr

/-- C2: For every backfill run with the override flag set to true, all
fetched readings in the entire range are inserted with
replace-on-conflict semantics (existing rows with the same
(gatewayId, timestamp) are overwritten), regardless of whether their
date is historical or current, with no day-boundary partitioning: after
runBackfill, the table stores exactly the fetched values under every
fetched key (for distinct gwids and per-gateway distinct timestamps,
with no condition on any boundary), and the single insert call the job
performs per gateway counts every reading as inserted and none as
skipped. -/
theorem C2_backfill_override_replaces (env : CronEnv) (st : JobState)
    (ar : AuthResult) (gs : List Gateway)
    (hov : env.override = true)
    (hvs : env.validSession = Except.ok ar)
    (hgs : env.gatewaysFirst = Except.ok gs)
    (hnd : (gs.map Gateway.gwid).Nodup) :
    (∀ gw ∈ gs, ∀ rs, env.fetchResult gw.gwid = Except.ok rs →
      (rs.map EnergyReading.timestamp).Nodup →
      ∀ r ∈ rs,
        lookupRow (runBackfill env st).2.1.table gw.gwid r.timestamp
          = some r)
    ∧ (∀ (tbl : ReadingsTable) (gid : Json) (rs : List EnergyReading),
        (backfillIngestStep tbl gid rs true).inserted = rs.length
        ∧ (backfillIngestStep tbl gid rs true).skipped = 0) := by
  constructor
  · intro gw hgw rs hf hrsnd r hr
    have hgsne : gs.isEmpty = false := by
      cases gs with
      | nil => cases hgw
      | cons a l => rfl
    simp only [runBackfill, hvs, hgs, finishBackfill, hgsne,
      Bool.false_eq_true, if_false]
    rw [hov]
    exact backfillLoop_override_stores env.fetchResult gs st.table hnd
      gw hgw rs hf hrsnd r hr
  · intro tbl gid rs
    exact insertEnergyReadings_replace_counts tbl gid rs

/-- Witness for C2: in the sample backfill run with override on, the
pre-existing row for G1 at timestamp 500 is overwritten with the
fetched values, and the insert call reports 1 inserted, 0 skipped. -/
theorem C2_backfill_override_replaces_witness :
    lookupRow (runBackfill sampleBackfillEnv sampleState).2.1.table
      (Json.str "G1") 500 = some (sampleReading 500 7)
    ∧ (backfillIngestStep sampleState.table (Json.str "G1")
        [sampleReading 500 7] true).inserted = 1
    ∧ (backfillIngestStep sampleState.table (Json.str "G1")
        [sampleReading 500 7] true).skipped = 0 := by
  have h := C2_backfill_override_replaces sampleBackfillEnv sampleState
    { session := sampleSession, fresh := false } [sampleGateway1]
    (by decide) rfl rfl (by decide)
  refine ⟨?_, (h.2 sampleState.table (Json.str "G1")
    [sampleReading 500 7]).1, (h.2 sampleState.table (Json.str "G1")
    [sampleReading 500 7]).2⟩
  exact h.1 sampleGateway1 (by decide) [sampleReading 500 7] rfl
    (by decide) (sampleReading 500 7) (by decide)

/-- C3: validateSession never throws (it is a total Bool-valued
function): a network failure, a non-OK HTTP status, a body that is not
JSON, a JSON body with a non-empty err field, and a JSON body
containing none of the user-key candidate fields all yield false; in
particular an HTTP 200 response with body err = "session expired"
yields false rather than an exception. -/
theorem C3_validateSession_false_cases :
    validateSession ProbeOutcome.netFailure = false
    ∧ (∀ body, validateSession (ProbeOutcome.response false body) = false)
    ∧ (∀ ok, validateSession (ProbeOutcome.response ok none) = false)
    ∧ (∀ ok data s, s ≠ "" → jsField data "err" = some (Json.str s) →
        validateSession (ProbeOutcome.response ok (some data)) = false)
    ∧ (∀ ok data, (∀ n ∈ userKeyFields, jsField data n = none) →
        validateSession (ProbeOutcome.response ok (some data)) = false)
    ∧ validateSession (ProbeOutcome.response true
        (some (Json.obj [("err", Json.str "session expired")]))) = false := by
  refine ⟨rfl, fun body => rfl, fun ok => by cases ok <;> rfl, ?_, ?_, by decide⟩
  · intro ok data s hs hf
    cases ok with
    | false => rfl
    | true =>
      simp only [validateSession, hf, Bool.not_true, Bool.false_eq_true,
        if_false, jsTruthy]
      have h1 : (s != "") = true := by simpa using hs
      have h2 : (Json.str s == Json.str "") = false := by
        simp [hs]
      rw [h1, h2]
      simp
  · intro ok data hnone
    cases ok with
    | false => rfl
    | true =>
      have hany : (userKeyFields.any fun n =>
          (jsField data n).elim false jsTruthy) = false := by
        rw [List.any_eq_false]
        intro n hn
        rw [hnone n hn]
        simp
      simp only [validateSession, Bool.not_true, Bool.false_eq_true,
        if_false, hany, Bool.not_false, if_true]
      cases herr : (match jsField data "err" with
        | some v => jsTruthy v && !(v == Json.str "")
        | none => false) <;> simp

/-- Witness for C3: the universally quantified cases instantiated at
concrete bodies. -/
theorem C3_validateSession_false_cases_witness :
    validateSession (ProbeOutcome.response false
      (some (Json.obj [("id", Json.num 5)]))) = false
    ∧ validateSession (ProbeOutcome.response true none) = false
    ∧ validateSession (ProbeOutcome.response true
        (some (Json.obj [("err", Json.str "session expired")]))) = false
    ∧ validateSession (ProbeOutcome.response true
        (some (Json.obj [("status", Json.str "ok")]))) = false :=
  ⟨C3_validateSession_false_cases.2.1 (some (Json.obj [("id", Json.num 5)])),
   C3_validateSession_false_cases.2.2.1 true,
   C3_validateSession_false_cases.2.2.2.1 true
     (Json.obj [("err", Json.str "session expired")]) "session expired"
     (by decide) (by decide),
   C3_validateSession_false_cases.2.2.2.2.1 true
     (Json.obj [("status", Json.str "ok")]) (by decide)⟩

/-- C4 counterexample: a session whose age is exactly 12 hours
(now = 43200000 ms, createdAt = 0) is not reported expired by
isSessionExpired, contradicting the claim that at exactly 12 hours
isExpired returns true. -/
theorem C4_counterexample :
    ((43200000 : Int) - (Session.mk "sid" "uk" 0).createdAt
      = SESSION_MAX_AGE_MS)
    ∧ isSessionExpired 43200000 (Session.mk "sid" "uk" 0) = false := by
  constructor <;> decide

/-- C4 (amended): at age exactly 12 hours minus 1 ms isExpired is
false, at age exactly 12 hours it is still false, and it is true
precisely for ages strictly greater than 12 hours. -/
theorem C4_expiry_boundary (now : Int) (s : Session) :
    (now - s.createdAt = SESSION_MAX_AGE_MS - 1 →
      isSessionExpired now s = false)
    ∧ (now - s.createdAt = SESSION_MAX_AGE_MS →
      isSessionExpired now s = false)
    ∧ (now - s.createdAt > SESSION_MAX_AGE_MS →
      isSessionExpired now s = true) := by
  unfold isSessionExpired SESSION_MAX_AGE_MS
  refine ⟨fun h => ?_, fun h => ?_, fun h => ?_⟩
  · rw [decide_eq_false]
    omega
  · rw [decide_eq_false]
    omega
  · rw [decide_eq_true]
    exact h

/-- Witness for C4 at the three concrete ages 12h - 1ms, 12h and
12h + 1ms. -/
theorem C4_expiry_boundary_witness :
    isSessionExpired 43199999 (Session.mk "sid" "uk" 0) = false
    ∧ isSessionExpired 43200000 (Session.mk "sid" "uk" 0) = false
    ∧ isSessionExpired 43200001 (Session.mk "sid" "uk" 0) = true :=
  ⟨(C4_expiry_boundary 43199999 (Session.mk "sid" "uk" 0)).1 (by decide),
   (C4_expiry_boundary 43200000 (Session.mk "sid" "uk" 0)).2.1 (by decide),
   (C4_expiry_boundary 43200001 (Session.mk "sid" "uk" 0)).2.2 (by decide)⟩

/-- When all three arrays are present, parseEnergyResponse maps over
the index entries. -/
theorem parseEnergyResponse_eq (d : Json) (cols idx rows : List Json)
    (hc : jsField d "columns" = some (Json.arr cols))
    (hi : jsField d "index" = some (Json.arr idx))
    (hd : jsField d "data" = some (Json.arr rows)) :
    parseEnergyResponse d
      = idx.enum.map fun p => mkReadingRaw cols rows p.fst p.snd := by
  simp [parseEnergyResponse, hc, hi, hd, asArray]

/-- Every metric field of the built reading is the name-based lookup. -/
theorem readingField_mkReadingRaw (cols rows : List Json) (i : Nat)
    (ts : Json) :
    ∀ name ∈ metricFields,
      readingField (mkReadingRaw cols rows i ts) name
        = getVal cols (rowAt rows i) name := by
  intro name hname
  fin_cases hname <;> rfl

/-- Lookups into the empty row give 0. -/
theorem getVal_empty_row (cols : List Json) (name : String) :
    getVal cols (Json.arr []) name = Json.num 0 := by
  cases h : colIndexOf cols name with
  | none => simp [getVal, h]
  | some idx => simp [getVal, h, jsIndexAccess]

/-- Lookups beyond the end of a row give 0. -/
theorem getVal_short_row (cols : List Json) (vs : List Json) (name : String)
    (h : ∀ j, colIndexOf cols name = some j → vs.length ≤ j) :
    getVal cols (Json.arr vs) name = Json.num 0 := by
  cases hidx : colIndexOf cols name with
  | none => simp [getVal, hidx]
  | some j =>
    have hlen := h j hidx
    simp [getVal, hidx, jsIndexAccess, List.getElem?_eq_none hlen]

/-- A reading all of whose metric lookups give 0 is the all-zero
reading. -/
theorem mkReadingRaw_eq_zero (cols rows : List Json) (i : Nat) (ts : Json)
    (h : ∀ name ∈ metricFields,
      getVal cols (rowAt rows i) name = Json.num 0) :
    mkReadingRaw cols rows i ts = zeroReadingAt ts := by
  simp only [mkReadingRaw, zeroReadingAt]
  rw [h "total_heat_1" (by decide), h "total_heat_2" (by decide),
    h "total_cool_1" (by decide), h "total_cool_2" (by decide),
    h "total_electric_heat" (by decide), h "total_fan_only" (by decide),
    h "total_loop_pump" (by decide),
    h "total_dehumidification" (by decide),
    h "runtime_heat_1" (by decide), h "runtime_heat_2" (by decide),
    h "runtime_cool_1" (by decide), h "runtime_cool_2" (by decide),
    h "runtime_electric_heat" (by decide),
    h "runtime_fan_only" (by decide),
    h "runtime_dehumidification" (by decide),
    h "total_power" (by decide)]

/-- A name absent from the columns has no position. -/
theorem colIndexOf_eq_none_of_not_mem (cols : List Json) (name : String)
    (h : Json.str name ∉ cols) : colIndexOf cols name = none := by
  unfold colIndexOf
  have hfilter : (cols.enum.filter fun p => p.snd = Json.str name) = [] := by
    rw [List.filter_eq_nil]
    intro p hp
    simp only [decide_eq_true_eq]
    intro heq
    exact h (heq ▸ List.get?_mem (List.mem_enum_iff_get?.mp hp))
  rw [hfilter]
  rfl

/-- A name occurring at exactly one position is mapped to it. -/
theorem colIndexOf_unique (cols : List Json) (name : String) (j : Nat)
    (hj : cols.get? j = some (Json.str name))
    (huniq : ∀ j2, cols.get? j2 = some (Json.str name) → j2 = j) :
    colIndexOf cols name = some j := by
  unfold colIndexOf
  have hmem : (j, Json.str name)
      ∈ cols.enum.filter fun p => p.snd = Json.str name := by
    rw [List.mem_filter]
    exact ⟨List.mem_enum_iff_get?.mpr hj, by simp⟩
  have hne : (cols.enum.filter fun p => p.snd = Json.str name) ≠ [] :=
    List.ne_nil_of_mem hmem
  have hall : ∀ p ∈ cols.enum.filter fun q => q.snd = Json.str name,
      p = (j, Json.str name) := by
    intro p hp
    rcases List.mem_filter.mp hp with ⟨hpe, hps⟩
    simp only [decide_eq_true_eq] at hps
    have hget := List.mem_enum_iff_get?.mp hpe
    rw [hps] at hget
    have := huniq p.1 hget
    obtain ⟨p1, p2⟩ := p
    simp only at hps this
    rw [this, hps]
  rw [List.getLast?_eq_getLast _ hne, hall _ (List.getLast_mem hne)]
  rfl

/-- C8: A vendor energy response whose columns, index or data field is
missing or not an array parses to the empty list rather than an error;
when the three arrays are present, a metric whose name does not occur
among the columns parses to 0 in every reading; and a metric whose name
occurs at a unique (arbitrary) column position is read from exactly
that position of the row, showing the lookup follows the column name
and not a fixed offset. -/
theorem C8_parse_tolerance :
    (∀ d, asArray (jsField d "columns") = none → parseEnergyResponse d = [])
    ∧ (∀ d, asArray (jsField d "index") = none → parseEnergyResponse d = [])
    ∧ (∀ d, asArray (jsField d "data") = none → parseEnergyResponse d = [])
    ∧ (∀ d cols idx rows name,
        jsField d "columns" = some (Json.arr cols) →
        jsField d "index" = some (Json.arr idx) →
        jsField d "data" = some (Json.arr rows) →
        name ∈ metricFields → Json.str name ∉ cols →
        ∀ r ∈ parseEnergyResponse d, readingField r name = Json.num 0)
    ∧ (∀ d cols idx rows name j,
        jsField d "columns" = some (Json.arr cols) →
        jsField d "index" = some (Json.arr idx) →
        jsField d "data" = some (Json.arr rows) →
        name ∈ metricFields →
        cols.get? j = some (Json.str name) →
        (∀ j2, cols.get? j2 = some (Json.str name) → j2 = j) →
        ∀ i r, (parseEnergyResponse d).get? i = some r →
          readingField r name
            = match jsIndexAccess (rowAt rows i) j with
              | some v => if v = Json.null then Json.num 0 else v
              | none => Json.num 0) := by
  refine ⟨?_, ?_, ?_, ?_, ?_⟩
  · intro d h
    simp [parseEnergyResponse, h]
  · intro d h
    cases h1 : asArray (jsField d "columns") <;>
      simp [parseEnergyResponse, h1, h]
  · intro d h
    cases h1 : asArray (jsField d "columns") <;>
      cases h2 : asArray (jsField d "index") <;>
        simp [parseEnergyResponse, h1, h2, h]
  · intro d cols idx rows name hc hi hd hname hnmem r hr
    rw [parseEnergyResponse_eq d cols idx rows hc hi hd] at hr
    rcases List.mem_map.mp hr with ⟨p, hp, rfl⟩
    rw [readingField_mkReadingRaw cols rows p.fst p.snd name hname]
    simp [getVal, colIndexOf_eq_none_of_not_mem cols name hnmem]
  · intro d cols idx rows name j hc hi hd hname hj huniq i r hr
    rw [parseEnergyResponse_eq d cols idx rows hc hi hd] at hr
    rw [List.get?_eq_getElem?, List.getElem?_map, List.getElem?_enum] at hr
    cases hts : idx[i]? with
    | none => rw [hts] at hr; cases hr
    | some ts =>
      rw [hts] at hr
      simp only [Option.map_some', Option.some_inj] at hr
      subst hr
      rw [readingField_mkReadingRaw cols rows i ts name hname]
      simp [getVal, colIndexOf_unique cols name j hj huniq]

/-- Witness for C8: a response missing the data field parses to the
empty list; a response whose columns lack total_heat_1 parses that
field as 0; and total_power, sitting at column position 1, is read from
row position 1. -/
theorem C8_parse_tolerance_witness :
    parseEnergyResponse (Json.obj [("columns",
        Json.arr [Json.str "total_power"]),
      ("index", Json.arr [Json.num 100])]) = []
    ∧ readingField (zeroReadingAt (Json.num 100)) "total_heat_1"
        = Json.num 0
    ∧ readingField
        (mkReadingRaw [Json.str "x", Json.str "total_power"]
          [Json.arr [Json.num 1, Json.num 2]] 0 (Json.num 100))
        "total_power" = Json.num 2 := by
  refine ⟨?_, ?_, ?_⟩
  · exact C8_parse_tolerance.2.2.1
      (Json.obj [("columns", Json.arr [Json.str "total_power"]),
        ("index", Json.arr [Json.num 100])]) (by decide)
  · have h := C8_parse_tolerance.2.2.2.1
      (Json.obj [("columns", Json.arr [Json.str "total_power"]),
        ("index", Json.arr [Json.num 100]),
        ("data", Json.arr [Json.arr [Json.num 9]])])
      [Json.str "total_power"] [Json.num 100] [Json.arr [Json.num 9]]
      "total_heat_1" (by decide) (by decide) (by decide) (by decide)
      (by decide)
      (mkReadingRaw [Json.str "total_power"] [Json.arr [Json.num 9]] 0
        (Json.num 100))
      (by decide)
    exact (by decide : readingField (mkReadingRaw [Json.str "total_power"]
      [Json.arr [Json.num 9]] 0 (Json.num 100)) "total_heat_1"
        = readingField (zeroReadingAt (Json.num 100)) "total_heat_1") ▸ h
  · have h := C8_parse_tolerance.2.2.2.2
      (Json.obj [("columns",
          Json.arr [Json.str "x", Json.str "total_power"]),
        ("index", Json.arr [Json.num 100]),
        ("data", Json.arr [Json.arr [Json.num 1, Json.num 2]])])
      [Json.str "x", Json.str "total_power"] [Json.num 100]
      [Json.arr [Json.num 1, Json.num 2]] "total_power" 1
      (by decide) (by decide) (by decide) (by decide) (by decide)
      (fun j2 hj2 => by
        match j2 with
        | 0 => exact absurd hj2 (by decide)
        | 1 => rfl
        | n + 2 => exact Option.noConfusion hj2) 0
      (mkReadingRaw [Json.str "x", Json.str "total_power"]
        [Json.arr [Json.num 1, Json.num 2]] 0 (Json.num 100))
      (by decide)
    exact h.trans (by decide)

/-- C10: parseEnergyResponse returns exactly one reading per index
entry even when the data array is shorter than the index: the reading
for an index entry with no backing row (and likewise one whose backing
row is too short for every metric column) has every metric field 0 at
that timestamp, so absent vendor rows silently materialize as all-zero
readings instead of being dropped or raising an error. -/
theorem C10_missing_rows_materialize (d : Json) (cols idx rows : List Json)
    (hc : jsField d "columns" = some (Json.arr cols))
    (hi : jsField d "index" = some (Json.arr idx))
    (hd : jsField d "data" = some (Json.arr rows)) :
    (parseEnergyResponse d).length = idx.length
    ∧ (∀ i ts, rows.length ≤ i → idx.get? i = some ts →
        (parseEnergyResponse d).get? i = some (zeroReadingAt ts))
    ∧ (∀ i ts vs, idx.get? i = some ts → rowAt rows i = Json.arr vs →
        (∀ name j, name ∈ metricFields → colIndexOf cols name = some j →
          vs.length ≤ j) →
        (parseEnergyResponse d).get? i = some (zeroReadingAt ts)) := by
  rw [parseEnergyResponse_eq d cols idx rows hc hi hd]
  refine ⟨by simp, ?_, ?_⟩
  · intro i ts hlen hts
    rw [List.get?_eq_getElem?, List.getElem?_map, List.getElem?_enum,
      ← List.get?_eq_getElem?, hts]
    simp only [Option.map_some', Option.some_inj]
    apply mkReadingRaw_eq_zero
    intro name _
    have hrow : rowAt rows i = Json.arr [] := by
      unfold rowAt
      rw [List.get?_eq_none.mpr hlen]
    rw [hrow]
    exact getVal_empty_row cols name
  · intro i ts vs hts hrow hshort
    rw [List.get?_eq_getElem?, List.getElem?_map, List.getElem?_enum,
      ← List.get?_eq_getElem?, hts]
    simp only [Option.map_some', Option.some_inj]
    apply mkReadingRaw_eq_zero
    intro name hname
    rw [hrow]
    exact getVal_short_row cols vs name fun j hj => hshort name j hname hj

/-- Witness for C10: two index entries over a single data row produce
two readings, the second being all-zero at its timestamp. -/
theorem C10_missing_rows_materialize_witness :
    (parseEnergyResponse (Json.obj [("columns",
        Json.arr [Json.str "total_power"]),
      ("index", Json.arr [Json.num 100, Json.num 200]),
      ("data", Json.arr [Json.arr [Json.num 9]])])).length = 2
    ∧ (parseEnergyResponse (Json.obj [("columns",
        Json.arr [Json.str "total_power"]),
      ("index", Json.arr [Json.num 100, Json.num 200]),
      ("data", Json.arr [Json.arr [Json.num 9]])])).get? 1
        = some (zeroReadingAt (Json.num 200)) := by
  have h := C10_missing_rows_materialize
    (Json.obj [("columns", Json.arr [Json.str "total_power"]),
      ("index", Json.arr [Json.num 100, Json.num 200]),
      ("data", Json.arr [Json.arr [Json.num 9]])])
    [Json.str "total_power"] [Json.num 100, Json.num 200]
    [Json.arr [Json.num 9]] (by decide) (by decide) (by decide)
  exact ⟨h.1.trans (by decide),
    h.2.1 1 (Json.num 200) (by decide) (by decide)⟩

mutual

/-- The structural search returns one gateway per nested gwid object. -/
theorem length_findGateways :
    ∀ d : Json, (findGateways d).length = countGwidObjects d
  | Json.null => rfl
  | Json.bool _ => rfl
  | Json.num _ => rfl
  | Json.str _ => rfl
  | Json.arr xs => by
      simpa [findGateways, countGwidObjects] using length_findGatewaysList xs
  | Json.obj kvs => by
      cases h : kvs.lookup "gwid" with
      | none =>
        simp [findGateways, countGwidObjects, selfGateway, h,
          length_findGatewaysKvs kvs]
      | some v =>
        cases v <;>
          simp [findGateways, countGwidObjects, selfGateway, h,
            length_findGatewaysKvs kvs, Nat.add_comm]

/-- Entry-wise version of length_findGateways. -/
theorem length_findGatewaysKvs :
    ∀ kvs : List (String × Json),
      (findGatewaysKvs kvs).length = countGwidObjectsKvs kvs
  | [] => rfl
  | (_, v) :: rest => by
      simp [findGatewaysKvs, countGwidObjectsKvs, length_findGateways v,
        length_findGatewaysKvs rest]

/-- Element-wise version of length_findGateways. -/
theorem length_findGatewaysList :
    ∀ xs : List Json,
      (findGatewaysList xs).length = countGwidObjectsList xs
  | [] => rfl
  | v :: rest => by
      simp [findGatewaysList, countGwidObjectsList, length_findGateways v,
        length_findGatewaysList rest]

end

/-- C9: For every location response that parses as JSON and has no
top-level gateways array, getGateways falls back to the recursive
structural search and returns one gateway for each nested object with a
string-valued gwid field (collecting all matches); it raises the
generic terminal error exactly when neither the gateways array nor any
nested gwid object is present. -/
theorem C9_gateway_fallback (d : Json) :
    (topGatewaysArray d = none → 0 < countGwidObjects d →
      ∃ l, getGatewaysParse d = Except.ok l
        ∧ l.length = countGwidObjects d)
    ∧ ((∃ m, getGatewaysParse d = Except.error m) ↔
        (topGatewaysArray d = none ∧ countGwidObjects d = 0)) := by
  constructor
  · intro htop hcount
    refine ⟨findGateways d, ?_, length_findGateways d⟩
    have hne : (findGateways d).isEmpty = false := by
      cases hfg : findGateways d with
      | nil =>
        rw [← length_findGateways d, hfg] at hcount
        cases hcount
      | cons a l => rfl
    simp [getGatewaysParse, htop, hne]
  · constructor
    · rintro ⟨m, hm⟩
      cases htop : topGatewaysArray d with
      | some xs => simp [getGatewaysParse, htop] at hm
      | none =>
        refine ⟨rfl, ?_⟩
        cases hfg : (findGateways d).isEmpty with
        | false => simp [getGatewaysParse, htop, hfg] at hm
        | true =>
          rw [List.isEmpty_iff] at hfg
          rw [← length_findGateways d, hfg]
          rfl
    · rintro ⟨htop, hcount⟩
      have hfg : (findGateways d).isEmpty = true := by
        rw [List.isEmpty_iff, ← List.length_eq_zero,
          length_findGateways d]
        exact hcount
      refine ⟨"No gateways found in location data. Keys: "
        ++ String.intercalate ", " (jsKeys d), ?_⟩
      simp [getGatewaysParse, htop, hfg]

/-- Witness for C9: a response with no top-level gateways array but two
nested gwid objects (one inside an array) yields exactly two gateways,
and a response with neither yields the error. -/
theorem C9_gateway_fallback_witness :
    (∃ l, getGatewaysParse (Json.obj [("a",
        Json.obj [("gwid", Json.str "G1")]),
      ("b", Json.arr [Json.obj [("gwid", Json.str "G2")]])])
        = Except.ok l ∧ l.length = 2)
    ∧ (∃ m, getGatewaysParse (Json.obj [("ok", Json.bool true)])
        = Except.error m) := by
  constructor
  · have h := (C9_gateway_fallback (Json.obj [("a",
        Json.obj [("gwid", Json.str "G1")]),
      ("b", Json.arr [Json.obj [("gwid", Json.str "G2")]])])).1
      (by decide) (by decide)
    rcases h with ⟨l, hl, hlen⟩
    exact ⟨l, hl, hlen.trans (by decide)⟩
  · exact ((C9_gateway_fallback (Json.obj [("ok", Json.bool true)])).2).mpr
      ⟨by decide, by decide⟩

/-- The daily loop emits exactly one fetch event per gateway, in list
order, and no other event. -/
theorem dailyLoop_events (fetch : Json → Except JobError (List EnergyReading))
    (midnightToday : Int) :
    ∀ (gs : List Gateway) (tbl : ReadingsTable),
      (dailyGatewayLoop fetch midnightToday gs tbl).events
        = gs.map fun g => JobEv.fetchCall g.gwid := by
  intro gs
  induction gs with
  | nil => intro tbl; rfl
  | cons g0 rest ih =>
    intro tbl
    simp only [dailyGatewayLoop, List.map_cons]
    cases hf : fetch g0.gwid with
    | error e => simp [ih tbl]
    | ok readings =>
      cases hemp : readings.isEmpty with
      | true => simp [hemp, ih tbl]
      | false => simp [hemp, ih]

/-- The daily loop produces exactly one result slot per gateway, in
list order. -/
theorem dailyLoop_slots (fetch : Json → Except JobError (List EnergyReading))
    (midnightToday : Int) :
    ∀ (gs : List Gateway) (tbl : ReadingsTable),
      (dailyGatewayLoop fetch midnightToday gs tbl).slots.map
        GatewayResult.gwid = gs.map Gateway.gwid := by
  intro gs
  induction gs with
  | nil => intro tbl; rfl
  | cons g0 rest ih =>
    intro tbl
    simp only [dailyGatewayLoop, List.map_cons]
    cases hf : fetch g0.gwid with
    | error e => simp [ih tbl]
    | ok readings =>
      cases hemp : readings.isEmpty with
      | true => simp [hemp, ih tbl]
      | false => simp [hemp, ih]

/-- C5: When the first gateway listing of runDailyFetch raises an
AuthError, exactly one forced re-login is performed (the new session is
persisted and loginRefreshed set) and the listing is retried exactly
once; if the retried listing or the re-login fails, the error becomes a
job-level failure (success false, job error field set) and nothing
further runs. The event traces list every vendor interaction of the
job: in each case the listing appears at most twice, the forced login
exactly once, and each gateway is fetched exactly once, so no other
operation is retried. -/
theorem C5_auth_retry_once (env : CronEnv) (st : JobState)
    (ar : AuthResult) (e : JobError)
    (hvs : env.validSession = Except.ok ar)
    (hg1 : env.gatewaysFirst = Except.error e)
    (hauth : e.isAuth = true) :
    (∀ s2 gs, env.reloginResult = Except.ok s2 →
      env.gatewaysRetry = Except.ok gs → gs ≠ [] →
      (runDailyFetch env st).1.loginRefreshed = true
      ∧ (runDailyFetch env st).2.1.sessionRow = some s2
      ∧ (runDailyFetch env st).2.2
          = [JobEv.getValidSessionCall, JobEv.listGatewaysCall,
             JobEv.loginCall, JobEv.storeSessionCall,
             JobEv.listGatewaysCall]
            ++ gs.map fun g => JobEv.fetchCall g.gwid)
    ∧ (∀ s2 e3, env.reloginResult = Except.ok s2 →
        env.gatewaysRetry = Except.error e3 →
        (runDailyFetch env st).1.success = false
        ∧ (runDailyFetch env st).1.error = some e3.msg
        ∧ (runDailyFetch env st).2.1.sessionRow = some s2
        ∧ (runDailyFetch env st).2.2
            = [JobEv.getValidSessionCall, JobEv.listGatewaysCall,
               JobEv.loginCall, JobEv.storeSessionCall,
               JobEv.listGatewaysCall])
    ∧ (∀ e2, env.reloginResult = Except.error e2 →
        (runDailyFetch env st).1.success = false
        ∧ (runDailyFetch env st).1.error = some e2.msg
        ∧ (runDailyFetch env st).2.2
            = [JobEv.getValidSessionCall, JobEv.listGatewaysCall,
               JobEv.loginCall]) := by
  refine ⟨?_, ?_, ?_⟩
  · intro s2 gs hre hretry hne
    have hemp : gs.isEmpty = false := by
      cases gs with
      | nil => exact absurd rfl hne
      | cons a l => rfl
    simp only [runDailyFetch, hvs, hg1, hauth, if_true, hre, hretry,
      finishDaily, hemp, Bool.false_eq_true, if_false]
    refine ⟨by trivial, by trivial, ?_⟩
    rw [dailyLoop_events]
  · intro s2 e3 hre hretry
    simp only [runDailyFetch, hvs, hg1, hauth, if_true, hre, hretry]
    refine ⟨?_, ?_, ?_, ?_⟩ <;> trivial
  · intro e2 hre
    simp only [runDailyFetch, hvs, hg1, hauth, if_true, hre]
    refine ⟨?_, ?_, ?_⟩ <;> trivial

/-- Witness for C5 in the sample retry environment: the re-login
session is persisted, loginRefreshed is set, and the trace shows one
getValidSession, two listings, one login, one store and one fetch. -/
theorem C5_auth_retry_once_witness :
    (runDailyFetch sampleRetryEnv sampleState).1.loginRefreshed = true
    ∧ (runDailyFetch sampleRetryEnv sampleState).2.1.sessionRow
        = some sampleSession2
    ∧ (runDailyFetch sampleRetryEnv sampleState).2.2
        = [JobEv.getValidSessionCall, JobEv.listGatewaysCall,
           JobEv.loginCall, JobEv.storeSessionCall,
           JobEv.listGatewaysCall, JobEv.fetchCall (Json.str "G1")] := by
  have h := (C5_auth_retry_once sampleRetryEnv sampleState
    { session := sampleSession, fresh := false }
    { isAuth := true, msg := "Session expired" }
    rfl rfl rfl).1 sampleSession2 [sampleGateway1] rfl rfl (by decide)
  exact ⟨h.1, h.2.1, h.2.2.trans (by decide)⟩

/-- The two ingest counters of the daily step always sum to the number
of readings handed to it. -/
theorem dailyIngestStep_counts (tbl : ReadingsTable) (g : Json)
    (rs : List EnergyReading) (midnightToday : Int) :
    (dailyIngestStep tbl g rs midnightToday).2.1
      + (dailyIngestStep tbl g rs midnightToday).2.2 = rs.length := by
  simp only [dailyIngestStep]
  have hy := insertEnergyReadings_counts tbl g
    (rs.filter fun r => r.timestamp < midnightToday) false
  have ht := insertEnergyReadings_counts
    (insertEnergyReadings tbl g
      (rs.filter fun r => r.timestamp < midnightToday) false).table
    g (rs.filter fun r => r.timestamp ≥ midnightToday) true
  have hsplit := length_filter_split
    (fun r : EnergyReading => decide (r.timestamp < midnightToday)) rs
  have hcongr : (rs.filter fun r => !(decide (r.timestamp < midnightToday)))
      = rs.filter fun r => r.timestamp ≥ midnightToday := by
    apply List.filter_congr
    intro x _
    cases hdec : decide (x.timestamp < midnightToday) with
    | false =>
      have hx := of_decide_eq_false hdec
      simp only [Bool.not_false, ge_iff_le]
      exact (decide_eq_true (by omega)).symm
    | true =>
      have hx := of_decide_eq_true hdec
      simp only [Bool.not_true, ge_iff_le]
      exact (decide_eq_false (by omega)).symm
  simp only [hcongr] at hsplit
  omega

/-- C6: When one gateway succeeds and another fails, runDailyFetch
returns (no exception escapes the model, which is a total function):
success is false, the job-level error is unset, every listed gateway
has exactly one result slot in order, the slot of the succeeding
gateway carries its counts with no error, and the slot of the failing
gateway carries the error message with zero counts. -/
theorem C6_per_gateway_isolation (env : CronEnv) (st : JobState)
    (ar : AuthResult) (gA gB : Gateway) (rsA : List EnergyReading)
    (e : JobError)
    (hvs : env.validSession = Except.ok ar)
    (hg1 : env.gatewaysFirst = Except.ok [gA, gB])
    (hA : env.fetchResult gA.gwid = Except.ok rsA)
    (hB : env.fetchResult gB.gwid = Except.error e) :
    (runDailyFetch env st).1.success = false
    ∧ (runDailyFetch env st).1.error = none
    ∧ (runDailyFetch env st).1.gateways.map GatewayResult.gwid
        = [gA.gwid, gB.gwid]
    ∧ (∃ ins skp, (runDailyFetch env st).1.gateways.get? 0
        = some { gwid := gA.gwid, inserted := ins, skipped := skp,
                 error := none }
        ∧ ins + skp = rsA.length)
    ∧ (runDailyFetch env st).1.gateways.get? 1
        = some { gwid := gB.gwid, inserted := 0, skipped := 0,
                 error := some e.msg } := by
  simp only [runDailyFetch, hvs, hg1, finishDaily, List.isEmpty_cons,
    Bool.false_eq_true, if_false]
  cases hemp : rsA.isEmpty with
  | true =>
    rw [List.isEmpty_iff] at hemp
    subst hemp
    refine ⟨?_, ?_, ?_, ⟨0, 0, ?_, rfl⟩, ?_⟩ <;>
      simp [dailyGatewayLoop, hA, hB]
  | false =>
    refine ⟨?_, ?_, ?_,
      ⟨(dailyIngestStep st.table gA.gwid rsA env.midnightToday).2.1,
       (dailyIngestStep st.table gA.gwid rsA env.midnightToday).2.2, ?_,
       dailyIngestStep_counts st.table gA.gwid rsA env.midnightToday⟩,
      ?_⟩ <;>
      simp [dailyGatewayLoop, hA, hB, hemp]

/-- Witness for C6 in the sample isolation environment: G1 succeeds
with its one reading counted, G2 fails with its message recorded, no
exception escapes and success is false. -/
theorem C6_per_gateway_isolation_witness :
    (runDailyFetch sampleIsolationEnv sampleState).1.success = false
    ∧ (runDailyFetch sampleIsolationEnv sampleState).1.gateways.map
        GatewayResult.gwid = [Json.str "G1", Json.str "G2"]
    ∧ (∃ ins skp,
        (runDailyFetch sampleIsolationEnv sampleState).1.gateways.get? 0
          = some { gwid := Json.str "G1", inserted := ins, skipped := skp,
                   error := none }
        ∧ ins + skp = 1)
    ∧ (runDailyFetch sampleIsolationEnv sampleState).1.gateways.get? 1
        = some { gwid := Json.str "G2", inserted := 0, skipped := 0,
                 error := some "fetch failed" } := by
  have h := C6_per_gateway_isolation sampleIsolationEnv sampleState
    { session := sampleSession, fresh := false } sampleGateway1
    sampleGateway2 [sampleReading 500 7]
    { isAuth := false, msg := "fetch failed" } rfl rfl rfl rfl
  exact ⟨h.1, h.2.2.1, h.2.2.2.1, h.2.2.2.2⟩

/-- Two strings with distinguishable fixed prefixes differ, whatever
their dynamic suffixes. -/
theorem append_take_ne (p1 p2 x y : String) (n : Nat)
    (h1 : n ≤ p1.data.length) (h2 : n ≤ p2.data.length)
    (hne : p1.data.take n ≠ p2.data.take n) : p1 ++ x ≠ p2 ++ y := by
  intro h
  apply hne
  have hd : p1.data ++ x.data = p2.data ++ y.data := by
    rw [← String.data_append, ← String.data_append, h]
  calc p1.data.take n
      = (p1.data ++ x.data).take n := (List.take_append_of_le_length h1).symm
    _ = (p2.data ++ y.data).take n := by rw [hd]
    _ = p2.data.take n := List.take_append_of_le_length h2

/-- A string with a distinguishable fixed prefix differs from a fixed
string, whatever its dynamic suffix. -/
theorem append_take_ne_const (p x c : String) (n : Nat)
    (h1 : n ≤ p.data.length) (h2 : n ≤ c.data.length)
    (hne : p.data.take n ≠ c.data.take n) : p ++ x ≠ c := by
  intro h
  apply hne
  calc p.data.take n
      = (p.data ++ x.data).take n := (List.take_append_of_le_length h1).symm
    _ = c.data.take n := by rw [← String.data_append, h]

/-- Every getUserKey failure message has one of the three descriptive
forms. -/
theorem getUserKey_error_cases (u : UserApiResponse) (m : String)
    (h : getUserKey u = Except.error m) :
    m = ukErrStatus u.status ∨ (∃ t, m = ukErrParse t)
    ∨ ∃ data, m = ukErrNoKey data := by
  unfold getUserKey at h
  cases hok : u.ok with
  | false =>
    rw [hok] at h
    simp only [Bool.not_false, if_true, Except.error.injEq] at h
    exact Or.inl h.symm
  | true =>
    rw [hok] at h
    simp only [Bool.not_true, Bool.false_eq_true, if_false] at h
    cases hp : u.parsed with
    | none =>
      rw [hp] at h
      simp only [Except.error.injEq] at h
      exact Or.inr (Or.inl ⟨u.text, h.symm⟩)
    | some data =>
      rw [hp] at h
      dsimp only at h
      cases hft : firstTruthyField data userKeyFields with
      | none =>
        rw [hft] at h
        simp only [Except.error.injEq] at h
        exact Or.inr (Or.inr ⟨data, h.symm⟩)
      | some v => rw [hft] at h; cases h

set_option maxRecDepth 4000 in
/-- C7: login fails with a distinct descriptive error in each failure
case: a non-302 credential response, a missing (or empty, equally
falsy) Set-Cookie header, a cookie without the sessionid pattern, and a
failed user-key resolution, whose error propagates; whenever login
fails, getValidSession leaves the stored session row unchanged, so no
session is persisted; and the four case messages are pairwise distinct
strings. -/
theorem C7_login_failures (env : SessionEnv) :
    (env.loginEnv.status ≠ 302 →
      login env.loginEnv = Except.error (loginErr302 env.loginEnv.status))
    ∧ (env.loginEnv.status = 302 →
      (env.loginEnv.setCookie = none ∨ env.loginEnv.setCookie = some "") →
      login env.loginEnv = Except.error loginErrNoCookie)
    ∧ (∀ header, env.loginEnv.status = 302 →
      env.loginEnv.setCookie = some header → header ≠ "" →
      extractSessionId header = none →
      login env.loginEnv = Except.error (loginErrNoSid header))
    ∧ (∀ header sid m, env.loginEnv.status = 302 →
      env.loginEnv.setCookie = some header →
      extractSessionId header = some sid →
      getUserKey env.loginEnv.userApi = Except.error m →
      login env.loginEnv = Except.error m)
    ∧ (∀ m, login env.loginEnv = Except.error m →
      ∀ stored, (getValidSession env stored).2 = stored)
    ∧ (∀ s c u m, getUserKey u = Except.error m →
      loginErr302 s ≠ loginErrNoCookie
      ∧ loginErr302 s ≠ loginErrNoSid c
      ∧ loginErrNoCookie ≠ loginErrNoSid c
      ∧ m ≠ loginErr302 s
      ∧ m ≠ loginErrNoCookie
      ∧ m ≠ loginErrNoSid c) := by
  refine ⟨?_, ?_, ?_, ?_, ?_, ?_⟩
  · intro h
    simp [login, h]
  · intro h302 hc
    rcases hc with hc | hc <;> simp [login, h302, hc]
  · intro header h302 hc hne hsid
    simp [login, h302, hc, hne, hsid]
  · intro header sid m h302 hc hsid hkey
    have hne : header ≠ "" := by
      intro he
      rw [he] at hsid
      cases hsid
    simp [login, h302, hc, hne, hsid, hkey]
  · intro m hm stored
    cases stored with
    | none => simp [getValidSession, loginAndStore, hm]
    | some s =>
      by_cases hexp : isSessionExpired env.now s = true
      · simp [getValidSession, hexp, loginAndStore, hm]
      · simp only [Bool.not_eq_true] at hexp
        by_cases hval : validateSession env.probe = true
        · simp [getValidSession, hexp, hval]
        · simp only [Bool.not_eq_true] at hval
          simp [getValidSession, hexp, hval, loginAndStore, hm]
  · intro s c u m hm
    have hforms := getUserKey_error_cases u m hm
    have hA_B : loginErr302 s ≠ loginErrNoCookie :=
      append_take_ne_const "Login failed: expected 302, got " (toString s)
        loginErrNoCookie 20 (by decide) (by decide) (by decide)
    have hA_C : loginErr302 s ≠ loginErrNoSid c :=
      append_take_ne "Login failed: expected 302, got "
        "Login failed: no sessionid in Set-Cookie. Header was: "
        (toString s) c 20 (by decide) (by decide) (by decide)
    have hC_B : loginErrNoSid c ≠ loginErrNoCookie :=
      append_take_ne_const
        "Login failed: no sessionid in Set-Cookie. Header was: " c
        loginErrNoCookie 18 (by decide) (by decide) (by decide)
    have hU : ∀ p2 : String, p2.data.take 6 = "Login ".data → m ≠ p2 := by
      intro p2 hp2
      have hlen2 : 6 ≤ p2.data.length := by
        have hl := congrArg List.length hp2
        rw [List.length_take] at hl
        simp only [List.length] at hl
        omega
      have hF : ∀ (pre suf : String), pre.data.take 6 = "Failed".data →
          pre ++ suf ≠ p2 := by
        intro pre suf hpre
        have hlen1 : 6 ≤ pre.data.length := by
          have hl := congrArg List.length hpre
          rw [List.length_take] at hl
          simp only [List.length] at hl
          omega
        exact append_take_ne_const pre suf p2 6 hlen1 hlen2
          (by rw [hpre, hp2]; decide)
      rcases hforms with hm1 | ⟨t, hm1⟩ | ⟨data, hm1⟩
      · rw [hm1]
        exact hF "Failed to get user info: " (toString u.status) (by decide)
      · rw [hm1]
        exact hF "Failed to parse user API response as JSON: "
          (t.take 200) (by decide)
      · rw [hm1]
        exact hF "Failed to get user key from user data. Available fields: "
          (String.intercalate ", " (jsKeys data)) (by decide)
    have htake302 : (loginErr302 s).data.take 6 = "Login ".data := by
      show ("Login failed: expected 302, got " ++ toString s).data.take 6
        = "Login ".data
      rw [String.data_append, List.take_append_of_le_length (by decide)]
      decide
    have htakeSid : (loginErrNoSid c).data.take 6 = "Login ".data := by
      show ("Login failed: no sessionid in Set-Cookie. Header was: "
        ++ c).data.take 6 = "Login ".data
      rw [String.data_append, List.take_append_of_le_length (by decide)]
      decide
    exact ⟨hA_B, hA_C, hC_B.symm, hU (loginErr302 s) htake302,
      hU loginErrNoCookie (by decide), hU (loginErrNoSid c) htakeSid⟩

/-- Witness for C7: a login whose credential POST answers 200 fails
with the descriptive non-302 message, the stored session row (empty
here) is unchanged by getValidSession, and the non-302 message differs
from the user-key-resolution message produced by the same environment
(whose user response body is not JSON). -/
theorem C7_login_failures_witness :
    login sampleLoginEnv200
      = Except.error "Login failed: expected 302, got 200"
    ∧ (getValidSession sampleSessionEnv none).2 = none
    ∧ ukErrParse "" ≠ loginErr302 200 := by
  have h := C7_login_failures sampleSessionEnv
  have h1 := h.1 (by decide)
  refine ⟨?_, ?_, ?_⟩
  · exact h1.trans (congrArg Except.error (by decide))
  · exact h.2.2.2.2.1 (loginErr302 200) h1 none
  · exact (h.2.2.2.2.2 200 "c" sampleLoginEnv200.userApi (ukErrParse "")
      rfl).2.2.2.1

end Geostar
